import Mathlib

/-!
Verification of the CSM intervention-system core: a shallow embedding of the
RDF-triple data model (`ontology_core.py`), the longitudinal barrier-assessment
engine (`barrier_assessment.py`), the analytics layer
(`barrier_assessment_app.py`), the encounter auto-tagging rule
(`encounter_app.py`) and the participant identifier scheme (`app.py`).

Modelling conventions:
* an rdflib `Graph` is a duplicate-free insertion-ordered list of triples;
  `Graph.add` is a no-op on an already-present triple (rdflib set semantics);
* rdflib terms (`URIRef`, typed `Literal`) become the inductive `Node`;
  rdflib `Literal` subclasses Python `str` holding the lexical form, so its
  truthiness is "lexical form non-empty" (e.g. `Literal(0)` is truthy) and
  `str(...)` of a term returns that lexical form / the URI text;
* each SPARQL query of the source is embedded directly as the corresponding
  join/filter computation over the triple list;
* Python `int` is `Int`; fallible conversions (`int(...)`) return `Option`;
* clock-dependent defaults (`datetime.now()`) become explicit arguments.
-/

namespace CSM

/-- Typed literal values used by the system: language-tagged strings,
`xsd:integer`, `xsd:boolean` (plain-string literals never occur in the
modelled code paths, language-tagged ones stand in for both) and
`xsd:dateTime` (stored by the source as an ISO string). -/
inductive LitVal where
  | langStr (s : String) (lang : String)
  | intVal (i : Int)
  | boolVal (b : Bool)
  | dateTime (s : String)
deriving DecidableEq, Repr

/-- An RDF term in object position: a resource URI or a typed literal. -/
inductive Node where
  | uri (u : String)
  | lit (v : LitVal)
deriving DecidableEq, Repr

/-- A subject-predicate-object statement.  Subjects and predicates are always
URIs in the modelled code, so they are kept as strings. -/
structure Triple where
  subj : String
  pred : String
  obj : Node
deriving DecidableEq, Repr

/-- An rdflib `Graph`: the triples in insertion order, without duplicates. -/
abbrev Graph := List Triple

/-- `Graph.add`: adding an existing triple is a no-op (rdflib set semantics). -/
def addT (g : Graph) (t : Triple) : Graph :=
  if t ∈ g then g else g ++ [t]

/-- A sequence of `Graph.add` calls, in order. -/
def addAll (g : Graph) (ts : List Triple) : Graph :=
  ts.foldl addT g

theorem mem_addT {g : Graph} {t x : Triple} : x ∈ addT g t ↔ x ∈ g ∨ x = t := by
  unfold addT
  split
  · next h => exact ⟨Or.inl, fun hx => hx.elim id (fun he => he ▸ h)⟩
  · simp

theorem mem_addAll {ts : List Triple} : ∀ {g : Graph} {x : Triple},
    x ∈ addAll g ts ↔ x ∈ g ∨ x ∈ ts := by
  induction ts with
  | nil => simp [addAll]
  | cons t ts ih =>
      intro g x
      show x ∈ addAll (addT g t) ts ↔ _
      rw [ih, mem_addT]
      simp [or_assoc]

theorem nodup_addT {g : Graph} {t : Triple} (h : g.Nodup) : (addT g t).Nodup := by
  unfold addT
  split
  · exact h
  · next hn => simpa [List.nodup_append] using ⟨h, hn⟩

theorem nodup_addAll {ts : List Triple} : ∀ {g : Graph}, g.Nodup → (addAll g ts).Nodup := by
  induction ts with
  | nil => exact fun h => h
  | cons t ts ih => exact fun h => ih (nodup_addT h)

/-- When the added triples are fresh and mutually distinct, a sequence of adds
is a plain append. -/
theorem addAll_eq_append {ts : List Triple} : ∀ {g : Graph},
    ts.Nodup → (∀ t ∈ ts, t ∉ g) → addAll g ts = g ++ ts := by
  induction ts with
  | nil => simp [addAll]
  | cons t ts ih =>
      intro g hnd hf
      have ht : t ∉ g := hf t (by simp)
      have h1 : addT g t = g ++ [t] := by simp [addT, ht]
      show addAll (addT g t) ts = _
      rw [h1, ih (List.nodup_cons.1 hnd).2]
      · simp
      · intro u hu
        simp only [List.mem_append, List.mem_singleton]
        rintro (hg | rfl)
        · exact hf u (by simp [hu]) hg
        · exact (List.nodup_cons.1 hnd).1 hu

/-- A list whose members all equal `x`, if inhabited, has head `x`. -/
theorem head?_of_mem_of_all_eq {α : Type} {l : List α} {x : α}
    (hm : x ∈ l) (ha : ∀ y ∈ l, y = x) : l.head? = some x := by
  cases l with
  | nil => cases hm
  | cons a l => simpa using ha a (by simp)

/-- Number of edges in `g` with the given subject and predicate. -/
def edgeCount (g : Graph) (s p : String) : Nat :=
  (g.filter (fun t => t.subj == s && t.pred == p)).length

theorem edgeCount_eq_one {g : Graph} {s p : String} {x : Triple}
    (hnd : g.Nodup) (hx : x ∈ g) (hs : x.subj = s) (hp : x.pred = p)
    (huniq : ∀ t ∈ g, t.subj = s → t.pred = p → t = x) :
    edgeCount g s p = 1 := by
  unfold edgeCount
  have hmem : x ∈ g.filter (fun t => t.subj == s && t.pred == p) := by
    simp [List.mem_filter, hx, hs, hp]
  have hall : ∀ y ∈ g.filter (fun t => t.subj == s && t.pred == p), y = x := by
    intro y hy
    have := List.mem_filter.1 hy
    simp only [Bool.and_eq_true, beq_iff_eq] at this
    exact huniq y this.1 this.2.1 this.2.2
  have hndf := List.Nodup.filter (fun t => t.subj == s && t.pred == p) hnd
  cases hf : g.filter (fun t => t.subj == s && t.pred == p) with
  | nil => rw [hf] at hmem; cases hmem
  | cons a l =>
      rw [hf] at hall hndf
      cases l with
      | nil => rfl
      | cons b l =>
          have ha := hall a (by simp)
          have hb := hall b (by simp)
          rw [List.nodup_cons] at hndf
          exact absurd (by simp [ha, hb] : a ∈ b :: l) hndf.1

theorem edgeCount_eq_zero {g : Graph} {s p : String}
    (h : ∀ t ∈ g, ¬(t.subj = s ∧ t.pred = p)) : edgeCount g s p = 0 := by
  unfold edgeCount
  rw [List.length_eq_zero, List.filter_eq_nil_iff]
  intro t ht
  simp only [Bool.and_eq_true, beq_iff_eq, not_and]
  exact fun h1 h2 => h t ht ⟨h1, h2⟩

/-! ## Namespaces, vocabulary and identifier scheme

From `ontology_core.py` and `barrier_assessment.py`: `BCIO`, `BFO`, `PATO`,
`IAO`, `INTERVENTION` and `BARRIER` are rdflib `Namespace`s; `NS[x]`
concatenates. -/

def bcioNS : String := "http://purl.obolibrary.org/obo/BCIO_"
def bfoNS : String := "http://purl.obolibrary.org/obo/BFO_"
def interventionNS : String := "http://interventions.org/"
def barrierNS : String := "http://interventions.org/barrier/"

def rdfType : String := "http://www.w3.org/1999/02/22-rdf-syntax-ns#type"
def rdfsLabel : String := "http://www.w3.org/2000/01/rdf-schema#label"

def bcioProcessCls : String := bcioNS ++ "0000001"
def bfoQualityCls : String := bfoNS ++ "0000020"
def bfoHasPart : String := bfoNS ++ "0000051"
def bfoInheresIn : String := bfoNS ++ "0000052"
def bcioHasSpecifiedInput : String := bcioNS ++ "has_specified_input"
def bcioHasTemporalValue : String := bcioNS ++ "has_temporal_value"
def bcioAssessedAtTimepoint : String := bcioNS ++ "assessed_at_timepoint"
def bcioConcernsDomain : String := bcioNS ++ "concerns_domain"
def bcioHasSeverityScore : String := bcioNS ++ "has_severity_score"
def bcioHasAssessmentDate : String := bcioNS ++ "has_assessment_date"
def bcioAddressableByMechanism : String := bcioNS ++ "addressable_by_mechanism"
def bcioIsReassessmentOf : String := bcioNS ++ "is_reassessment_of"
def bcioHasChangeFromBaseline : String := bcioNS ++ "has_change_from_baseline"

def barrierReductionCls : String := barrierNS ++ "Barrier_Reduction"
def barrierIncreaseCls : String := barrierNS ++ "Barrier_Increase"
def barrierStableCls : String := barrierNS ++ "Barrier_Stable"

/-- The six COM-B categories: keys of `BarrierAssessment.BARRIER_TYPES`. -/
inductive BarrierType where
  | physical_capability
  | psychological_capability
  | physical_opportunity
  | social_opportunity
  | reflective_motivation
  | automatic_motivation
deriving DecidableEq, Repr

/-- The dictionary key of the barrier type. -/
def BarrierType.key : BarrierType → String
  | .physical_capability => "physical_capability"
  | .psychological_capability => "psychological_capability"
  | .physical_opportunity => "physical_opportunity"
  | .social_opportunity => "social_opportunity"
  | .reflective_motivation => "reflective_motivation"
  | .automatic_motivation => "automatic_motivation"

/-- `BARRIER_TYPES[...]['class']`. -/
def BarrierType.clsName : BarrierType → String
  | .physical_capability => "Physical_Capability_Barrier"
  | .psychological_capability => "Psychological_Capability_Barrier"
  | .physical_opportunity => "Physical_Opportunity_Barrier"
  | .social_opportunity => "Social_Opportunity_Barrier"
  | .reflective_motivation => "Reflective_Motivation_Barrier"
  | .automatic_motivation => "Automatic_Motivation_Barrier"

/-- `BARRIER_TYPES[...]['label']`. -/
def BarrierType.lbl : BarrierType → String
  | .physical_capability => "Physical Capability Barrier"
  | .psychological_capability => "Psychological Capability Barrier"
  | .physical_opportunity => "Physical Opportunity Barrier"
  | .social_opportunity => "Social Opportunity Barrier"
  | .reflective_motivation => "Reflective Motivation Barrier"
  | .automatic_motivation => "Automatic Motivation Barrier"

/-- `BARRIER_TYPES[...]['mechanism']`. -/
def BarrierType.mechanism : BarrierType → String
  | .physical_capability => "BCIO_0000532"
  | .psychological_capability => "BCIO_0000532"
  | .physical_opportunity => "BCIO_0000536"
  | .social_opportunity => "BCIO_0000537"
  | .reflective_motivation => "BCIO_0000533"
  | .automatic_motivation => "BCIO_0000534"

/-- Keys of `BarrierAssessment.DOMAINS`. -/
inductive Domain where
  | employment
  | accommodation
  | substance_use
  | relationships
  | attitudes
  | leisure
deriving DecidableEq, Repr

def Domain.key : Domain → String
  | .employment => "employment"
  | .accommodation => "accommodation"
  | .substance_use => "substance_use"
  | .relationships => "relationships"
  | .attitudes => "attitudes"
  | .leisure => "leisure"

/-- `DOMAINS[...]` values. -/
def Domain.value : Domain → String
  | .employment => "Employment_Domain"
  | .accommodation => "Accommodation_Domain"
  | .substance_use => "Substance_Use_Domain"
  | .relationships => "Relationships_Domain"
  | .attitudes => "Attitudes_Domain"
  | .leisure => "Leisure_Domain"

/-- Keys of `BarrierAssessment.TIMEPOINTS`. -/
inductive Timepoint where
  | baseline
  | day_30
  | day_90
  | day_180
deriving DecidableEq, Repr

def Timepoint.key : Timepoint → String
  | .baseline => "baseline"
  | .day_30 => "day_30"
  | .day_90 => "day_90"
  | .day_180 => "day_180"

/-- `TIMEPOINTS[...]` values. -/
def Timepoint.value : Timepoint → String
  | .baseline => "timepoint:Baseline"
  | .day_30 => "timepoint:Day_30"
  | .day_90 => "timepoint:Day_90"
  | .day_180 => "timepoint:Day_180"

/-- `INTERVENTION[f"participant/.."]`. -/
def participantUri (pid : String) : String :=
  interventionNS ++ "participant/" ++ pid

/-- `INTERVENTION[f"domain/.."]` over `DOMAINS[domain]`. -/
def domainUri (d : Domain) : String :=
  interventionNS ++ "domain/" ++ d.value

/-- `INTERVENTION[TIMEPOINTS[timepoint]]`. -/
def timepointUri (tp : Timepoint) : String :=
  interventionNS ++ tp.value

/-- `INTERVENTION[f"assessment/{pid}/{domain}/{timepoint}/{assessment_date}"]`. -/
def assessmentUri (pid : String) (d : Domain) (tp : Timepoint) (date : String) : String :=
  interventionNS ++ ("assessment/" ++ (pid ++ ("/" ++ (d.key ++ ("/" ++ (tp.key ++ ("/" ++ date)))))))

/-- Python's `s.split(sep)[-1]`: the suffix after the last occurrence of
`sep` (the whole string when `sep` does not occur). -/
def lastSegBy (sep : Char) (s : String) : String :=
  ⟨(s.data.reverse.takeWhile (fun c => c ≠ sep)).reverse⟩

/-- `BARRIER[f"{seg}/{domain}/{barrier_type}/{timepoint}"]`: the barrier
instance URI is a function of the participant segment, domain, barrier type
and timepoint only — the assessment date does not appear. -/
def barrierUri (seg : String) (d : Domain) (bt : BarrierType) (tp : Timepoint) : String :=
  barrierNS ++ (seg ++ ("/" ++ (d.key ++ ("/" ++ (bt.key ++ ("/" ++ tp.key))))))

/-! ## The barrier-assessment engine (`BarrierAssessmentGraph`) -/

/-- The six triples `add_barrier_assessment` writes for the assessment event
itself (typing, label, participant link, date, timepoint, domain). -/
def assessmentHeaderTriples (au pid : String) (d : Domain) (tp : Timepoint)
    (date : String) : List Triple :=
  [⟨au, rdfType, .uri bcioProcessCls⟩,
   ⟨au, rdfsLabel, .lit (.langStr ("Barrier Assessment - " ++ d.key) "en")⟩,
   ⟨au, bcioHasSpecifiedInput, .uri (participantUri pid)⟩,
   ⟨au, bcioHasTemporalValue, .lit (.dateTime date)⟩,
   ⟨au, bcioAssessedAtTimepoint, .uri (timepointUri tp)⟩,
   ⟨au, bcioConcernsDomain, .uri (domainUri d)⟩]

/-- The triples `_create_barrier_instance` writes for one barrier instance. -/
def barrierInstanceTriples (bu puri : String) (bt : BarrierType) (score : Int)
    (d : Domain) (tp : Timepoint) (date : String) : List Triple :=
  [⟨bu, rdfType, .uri (barrierNS ++ bt.clsName)⟩,
   ⟨bu, rdfType, .uri bfoQualityCls⟩,
   ⟨bu, rdfsLabel, .lit (.langStr bt.lbl "en")⟩,
   ⟨bu, bfoInheresIn, .uri puri⟩,
   ⟨bu, bcioConcernsDomain, .uri (domainUri d)⟩,
   ⟨bu, bcioAssessedAtTimepoint, .uri (timepointUri tp)⟩,
   ⟨bu, bcioHasSeverityScore, .lit (.intVal score)⟩,
   ⟨bu, bcioHasAssessmentDate, .lit (.dateTime date)⟩,
   ⟨bu, bcioAddressableByMechanism, .uri (bcioNS ++ bt.mechanism)⟩]

/-- `BarrierAssessmentGraph.add_barrier_assessment`.  `barrier_scores` is the
(ordered) dict of COM-B scores; `assessment_date` is explicit (the source
defaults it to the current clock).  Note `_create_barrier_instance` derives
the participant segment of the barrier URI as `participant_uri.split('/')[-1]`. -/
def addBarrierAssessment (g : Graph) (pid : String) (d : Domain) (tp : Timepoint)
    (scores : List (BarrierType × Int)) (date : String) : Graph :=
  let au := assessmentUri pid d tp date
  let puri := participantUri pid
  let g1 := addAll g (assessmentHeaderTriples au pid d tp date)
  scores.foldl (fun g p =>
    let bu := barrierUri (lastSegBy '/' puri) d p.1 tp
    addAll g (barrierInstanceTriples bu puri p.1 p.2 d tp date ++
      [⟨au, bfoHasPart, .uri bu⟩])) g1

/-- Decimal digit characters. -/
def digitCh : Nat → Char
  | 0 => '0' | 1 => '1' | 2 => '2' | 3 => '3' | 4 => '4'
  | 5 => '5' | 6 => '6' | 7 => '7' | 8 => '8' | _ => '9'

/-- Little-endian decimal digits of `n`, with fuel (`n` itself suffices). -/
def natDigitsRev : Nat → Nat → List Nat
  | 0, _ => []
  | fuel + 1, n => if n = 0 then [] else (n % 10) :: natDigitsRev fuel (n / 10)

/-- The decimal representation of a natural number (Python `str(n)`), as
characters. -/
def natLexChars (n : Nat) : List Char :=
  if n = 0 then ['0'] else ((natDigitsRev n n).map digitCh).reverse

/-- Python `str(n)` for a natural number. -/
def natLex (n : Nat) : String := ⟨natLexChars n⟩

/-- Python `str(i)` for an integer. -/
def intLex (i : Int) : String :=
  match i with
  | .ofNat n => natLex n
  | .negSucc n => "-" ++ natLex (n + 1)

/-- The lexical form stored by an rdflib `Literal` (a `str` subclass). -/
def LitVal.lexical : LitVal → String
  | .langStr s _ => s
  | .intVal i => intLex i
  | .boolVal b => if b then "true" else "false"
  | .dateTime s => s

/-- Python `str(term)`: the URI text, or the literal's lexical form. -/
def Node.text : Node → String
  | .uri u => u
  | .lit v => v.lexical

/-- Python truthiness of an rdflib term: both `URIRef` and `Literal` subclass
`str`, so a term is truthy iff its text is non-empty (`Literal(0)` has lexical
form "0" and is truthy — a known rdflib gotcha). -/
def Node.truthy : Node → Bool
  | .uri u => u ≠ ""
  | .lit v => v.lexical ≠ ""

/-- Parse an unsigned decimal digit string (empty or non-digit input fails). -/
def parseDigits (l : List Char) : Option Nat :=
  if l = [] then none
  else if l.all (fun c => decide (('0').toNat ≤ c.toNat ∧ c.toNat ≤ ('9').toNat)) then
    some (l.foldl (fun a c => 10 * a + (c.toNat - ('0').toNat)) 0)
  else none

/-- Parse a decimal integer with optional leading minus sign. -/
def parseIntLex : List Char → Option Int
  | [] => none
  | c :: rest =>
      if c = '-' then (parseDigits rest).map (fun n => -(n : Int))
      else (parseDigits (c :: rest)).map (fun n => (n : Int))

/-- Python `int(...)` applied to an rdflib term, as an `Option` (an exception
becomes `none`): integer literals convert by value; string-backed literals are
parsed as a decimal integer; URIs and dateTime values fail. -/
def nodeToInt : Node → Option Int
  | .lit (.intVal i) => some i
  | .lit (.boolVal b) => some (if b then 1 else 0)
  | .lit (.langStr s _) => parseIntLex s.data
  | .lit (.dateTime _) => none
  | .uri _ => none

/-- `BarrierAssessmentGraph._get_barrier_score`: the SPARQL lookup of the
severity score of one barrier URI.  With a unique matching triple (the only
case the repository produces) the query has exactly one row; `results[0][0]`
is modelled as the first matching triple in the store. -/
def getBarrierScore (g : Graph) (bu : String) : Option Int :=
  match (g.filter (fun t => t.subj == bu && t.pred == bcioHasSeverityScore)).head? with
  | some t => nodeToInt t.obj
  | none => none

/-- `BarrierAssessmentGraph.add_follow_up_assessment`: records the follow-up
assessment, then for each scored barrier type adds an `is_reassessment_of`
edge to the baseline barrier URI (unconditionally — the preceding SPARQL
baseline query's results are never used by the source), and, when the baseline
severity lookup succeeds, a change edge `followup - baseline` plus an outcome
classification type. -/
def addFollowUpAssessment (g : Graph) (pid : String) (d : Domain) (tp : Timepoint)
    (scores : List (BarrierType × Int)) (date : String) : Graph :=
  let g1 := addBarrierAssessment g pid d tp scores date
  scores.foldl (fun g p =>
    let fu := barrierUri pid d p.1 tp
    let bu := barrierUri pid d p.1 .baseline
    let g2 := addT g ⟨fu, bcioIsReassessmentOf, .uri bu⟩
    match getBarrierScore g2 bu with
    | some baselineScore =>
        let change := p.2 - baselineScore
        let g3 := addT g2 ⟨fu, bcioHasChangeFromBaseline, .lit (.intVal change)⟩
        if change < 0 then addT g3 ⟨fu, rdfType, .uri barrierReductionCls⟩
        else if change > 0 then addT g3 ⟨fu, rdfType, .uri barrierIncreaseCls⟩
        else addT g3 ⟨fu, rdfType, .uri barrierStableCls⟩
    | none => g2) g1

/-! ## Query layer (`get_participant_barriers`) and analytics

SPARQL `ORDER BY` sorts with Python's stable sort; `stableSort` below is a
stable insertion sort, which produces the same output as any stable sort for
the same key, and (unlike well-founded merge sort) evaluates by kernel
reduction. -/

/-- Stable insertion of `x` before the first element `y` with `le x y`. -/
def insertSorted {α : Type} (le : α → α → Bool) (x : α) : List α → List α
  | [] => [x]
  | y :: ys => if le x y then x :: y :: ys else y :: insertSorted le x ys

/-- Stable sort by `le` (models Python's stable `sorted`). -/
def stableSort {α : Type} (le : α → α → Bool) : List α → List α
  | [] => []
  | x :: xs => insertSorted le x (stableSort le xs)

theorem insertSorted_perm {α : Type} (le : α → α → Bool) (x : α) (l : List α) :
    (insertSorted le x l).Perm (x :: l) := by
  induction l with
  | nil => exact List.Perm.refl _
  | cons y ys ih =>
      unfold insertSorted
      split
      · exact List.Perm.refl _
      · exact ((ih.cons y).trans (List.Perm.swap x y ys))

theorem stableSort_perm {α : Type} (le : α → α → Bool) (l : List α) :
    (stableSort le l).Perm l := by
  induction l with
  | nil => exact List.Perm.refl _
  | cons x xs ih => exact (insertSorted_perm le x (stableSort le xs)).trans (ih.cons x)

theorem mem_stableSort {α : Type} {le : α → α → Bool} {x : α} {l : List α} :
    x ∈ stableSort le l ↔ x ∈ l :=
  (stableSort_perm le l).mem_iff

/-- Python's `needle in hay` on strings: substring containment.  This models
SPARQL `CONTAINS` as well. -/
def strContains (hay needle : String) : Bool :=
  hay.data.tails.any (fun suf => needle.data.isPrefixOf suf)

/-- The Python loop `for row in results: results.append(convert(row))` where a
conversion may raise: the first failure aborts the whole call. -/
def pyMapM {α β : Type} (f : α → Option β) : List α → Option (List β)
  | [] => some []
  | x :: xs =>
    match f x, pyMapM f xs with
    | some y, some ys => some (y :: ys)
    | _, _ => none

/-- Objects of all triples in `g` with the given subject and predicate, in
store order. -/
def objectsOf (g : Graph) (s p : String) : List Node :=
  (g.filter (fun t => t.subj == s && t.pred == p)).map (fun t => t.obj)

/-- SPARQL `OPTIONAL`: no match leaves the variable unbound (one row),
otherwise one row per match. -/
def optionalMatches (l : List Node) : List (Option Node) :=
  if l = [] then [none] else l.map some

/-- One result row of the `get_participant_barriers` SPARQL query. -/
structure QRow where
  barrier : String
  score : Node
  lbl : Node
  dom : Node
  tpt : Node
  change : Option Node
deriving DecidableEq, Repr

/-- The filters of the `get_participant_barriers` query: the optional
`concerns_domain` / `assessed_at_timepoint` extra patterns and the
`FILTER(CONTAINS(STR(?barrier), participant_id))` clause. -/
def rowKeep (g : Graph) (pid : String) (dFil : Option Domain)
    (tpFil : Option Timepoint) (b : String) : Bool :=
  (match dFil with
   | none => true
   | some d => decide ((⟨b, bcioConcernsDomain, .uri (domainUri d)⟩ : Triple) ∈ g)) &&
  (match tpFil with
   | none => true
   | some tp => decide ((⟨b, bcioAssessedAtTimepoint, .uri (timepointUri tp)⟩ : Triple) ∈ g)) &&
  strContains b pid

/-- The basic graph pattern of the `get_participant_barriers` query: a row per
combination of severity score, label, domain, timepoint and (optional) change
bindings of a subject, subject to the filters. -/
def queryRows (g : Graph) (pid : String) (dFil : Option Domain)
    (tpFil : Option Timepoint) : List QRow :=
  (g.filter (fun t => t.pred == bcioHasSeverityScore)).flatMap (fun t1 =>
    (objectsOf g t1.subj rdfsLabel).flatMap (fun lb =>
      (objectsOf g t1.subj bcioConcernsDomain).flatMap (fun dn =>
        (objectsOf g t1.subj bcioAssessedAtTimepoint).flatMap (fun tn =>
          (optionalMatches (objectsOf g t1.subj bcioHasChangeFromBaseline)).filterMap
            (fun c? =>
              if rowKeep g pid dFil tpFil t1.subj then
                some ⟨t1.subj, t1.obj, lb, dn, tn, c?⟩
              else none)))))

/-- Lexicographic order on character lists by codepoint (the order `String`
comparison uses). -/
def charListLt : List Char → List Char → Bool
  | [], [] => false
  | [], _ :: _ => true
  | _ :: _, [] => false
  | a :: as, b :: bs =>
      if a.toNat < b.toNat then true
      else if b.toNat < a.toNat then false
      else charListLt as bs

/-- String strict order by codepoints (what SPARQL `ORDER BY` applies to the
stringified terms). -/
def strLt (a b : String) : Bool := charListLt a.data b.data

/-- `ORDER BY ?domain ?timepoint` over the bound terms. -/
def rowLe (a b : QRow) : Bool :=
  strLt a.dom.text b.dom.text ||
    (a.dom.text == b.dom.text &&
      (strLt a.tpt.text b.tpt.text || a.tpt.text == b.tpt.text))

/-- One dict of the list returned by `get_participant_barriers`. -/
structure BarrierRecord where
  barrier_uri : String
  lbl : String
  dom : String
  timepoint : String
  severity_score : Int
  change_from_baseline : Option Int
deriving DecidableEq, Repr

/-- Builds one result dict from a row: `int(row.score)`,
`str(row.domain).split('/')[-1]`, `str(row.timepoint).split(':')[-1]` and
`int(row.change) if row.change else None` — the guard is Python truthiness of
the rdflib term, so an unbound `?change` gives `None` while a bound integer
literal (lexical form non-empty, even for 0) is converted. -/
def toRecord (row : QRow) : Option BarrierRecord :=
  match nodeToInt row.score with
  | none => none
  | some s =>
    match row.change with
    | none =>
        some ⟨row.barrier, row.lbl.text, lastSegBy '/' row.dom.text,
              lastSegBy ':' row.tpt.text, s, none⟩
    | some c =>
        if c.truthy then
          match nodeToInt c with
          | none => none
          | some cv =>
              some ⟨row.barrier, row.lbl.text, lastSegBy '/' row.dom.text,
                    lastSegBy ':' row.tpt.text, s, some cv⟩
        else
          some ⟨row.barrier, row.lbl.text, lastSegBy '/' row.dom.text,
                lastSegBy ':' row.tpt.text, s, none⟩

/-- `BarrierAssessmentGraph.get_participant_barriers`. -/
def getParticipantBarriers (g : Graph) (pid : String) (dFil : Option Domain)
    (tpFil : Option Timepoint) : Option (List BarrierRecord) :=
  pyMapM toRecord (stableSort rowLe (queryRows g pid dFil tpFil))

/-- The objects of every `has_change_from_baseline` edge in the store,
regardless of domain (the pattern the analytics queries share). -/
def changeNodes (g : Graph) : List Node :=
  (g.filter (fun t => t.pred == bcioHasChangeFromBaseline)).map (fun t => t.obj)

/-- The dict returned by `get_change_score_distribution` (the `Counter` becomes
a count function). -/
structure ChangeDistribution where
  changes : List Int
  distribution : Int → Nat
  improved_count : Nat
  stable_count : Nat
  worsened_count : Nat

/-- `get_change_score_distribution`: all change scores (any domain), sorted
(`ORDER BY ?change`), their histogram, and the improved/stable/worsened
counts. -/
def getChangeScoreDistribution (g : Graph) : Option ChangeDistribution :=
  match pyMapM nodeToInt (changeNodes g) with
  | none => none
  | some vals =>
    let changes := stableSort (fun a b => decide (a ≤ b)) vals
    some ⟨changes, fun i => changes.count i,
          (changes.filter (fun c => decide (c < 0))).length,
          (changes.filter (fun c => decide (c = 0))).length,
          (changes.filter (fun c => decide (0 < c))).length⟩

/-- `calculate_avg_barrier_reduction`: `AVG(?change)` over every change edge
in the store.  The average is modelled exactly in `Rat`; the source converts
the SPARQL aggregate to a Python float only for presentation, and returns 0
when there is nothing to average. -/
def calculateAvgBarrierReduction (g : Graph) : Option Rat :=
  match pyMapM nodeToInt (changeNodes g) with
  | none => none
  | some vals =>
      some (if vals.length = 0 then 0 else (vals.sum : Rat) / (vals.length : Rat))

/-! ## Identifier scheme (`app.py` `new_participant`) -/

/-- Python `str.zfill(w)`: left-pad with zeros to width `w` (our inputs are
unsigned decimal strings, so the sign-handling branch of `zfill` never
fires). -/
def pyZfill (w : Nat) (s : String) : String :=
  ⟨List.replicate (w - s.data.length) '0' ++ s.data⟩

/-- `f"P{str(n).zfill(3)}"` where `n = count + 1` is the participant sequence
number. -/
def participantId (n : Nat) : String :=
  "P" ++ pyZfill 3 (natLex n)

/-! ## Encounter auto-tagging (`encounter_app.py`) -/

/-- One technique entry of a protocol's `bcts` catalog list. -/
structure BctDef where
  bct_id : String
  lbl : String
  practitioner_label : String
  defn : String
  auto : Bool
  bct_class : String
deriving DecidableEq, Repr

/-- One `confirmed_bcts` entry (`{fidelity, notes}`, each read with `.get`). -/
structure ConfirmedBct where
  fidelity : Option String
  notes : Option String
deriving DecidableEq, Repr

/-- The referral sub-record assembled by `submit_encounter`. -/
structure ReferralData where
  was_referral_made : Bool
  category : Option String
  destination : Option String
  accepted : Bool
deriving DecidableEq, Repr

/-- One BCT instance dict built by `auto_tag_encounter` (the nested
`fidelity` dict is flattened to its two fields; `referral_context` is present
only on the synthesized instance). -/
structure BctInstance where
  bct_instance_uri : String
  bct_class : String
  bct_id : String
  practitioner_label : String
  formal_label : String
  fidelity_value : String
  fidelity_quality_type : String
  notes : String
  auto_tagged : Bool
  referral_context : Option ReferralData
deriving DecidableEq, Repr

/-- `generate_bct_uri`. -/
def generate_bct_uri (encounter_id : String) (bct_index : Nat) : String :=
  interventionNS ++ ("encounter/" ++ (encounter_id ++ ("/bct/" ++ natLex bct_index)))

/-- The `bcts` list of each `PROTOCOL_CATALOG` entry (the other catalog fields
are not read by `auto_tag_encounter`). -/
def protocolBcts (protocol_id : String) : List BctDef :=
  if protocol_id = "housing_action_planning" then
    [⟨"BCT_1.1", "Goal setting (behavior)", "Help participant set specific housing goals",
      "Set or agree a goal defined in terms of the behavior to be achieved.", true, "BCIO:007004"⟩,
     ⟨"BCT_1.4", "Action planning", "Create action plan together",
      "Prompt detailed planning of performance of the behavior (when, where, how, and with whom to act).", true, "BCIO:007010"⟩,
     ⟨"BCT_3.2", "Social support (practical)", "Arrange practical support from others",
      "Advise on, arrange, or provide practical help (e.g., from friends, relatives, colleagues, buddies or staff) for performance of the behavior.", false, "BCIO:007030"⟩,
     ⟨"BCT_12.5", "Adding objects to the environment", "Provide resources or materials",
      "Add objects to the environment in order to facilitate performance of the behavior.", false, "BCIO:007156"⟩]
  else if protocol_id = "substance_use_brief_intervention" then
    [⟨"BCT_5.1", "Information about health consequences", "Discuss health impacts of substance use",
      "Provide information (e.g., written, verbal, visual) about health consequences of performing the behavior.", true, "BCIO:007054"⟩,
     ⟨"BCT_5.3", "Information about social/environmental consequences", "Discuss how substance use affects life circumstances",
      "Provide information (e.g., written, verbal, visual) about social and environmental consequences of performing the behavior.", true, "BCIO:007056"⟩,
     ⟨"BCT_13.2", "Framing/reframing", "Help see situation from different perspective",
      "Suggest the deliberate adoption of a perspective or new perspective on behavior (e.g., its purpose) in order to change cognitions or emotions about performing the behavior.", false, "BCIO:007174"⟩,
     ⟨"BCT_9.2", "Pros and cons", "Explore benefits and drawbacks together",
      "Advise the person to identify and compare reasons for wanting and not wanting to change the behavior.", true, "BCIO:007100"⟩,
     ⟨"BCT_1.5", "Review behavior goals", "Check progress on previous goals",
      "Review behavior goal(s) jointly with the person and consider modifying goal(s) or behavior change strategy in light of achievement.", false, "BCIO:007013"⟩]
  else if protocol_id = "benefits_navigation" then
    [⟨"BCT_4.1", "Instruction on how to perform behavior", "Give step-by-step instructions",
      "Advise or agree on how to perform the behavior (includes 'skills training').", true, "BCIO:007037"⟩,
     ⟨"BCT_3.2", "Social support (practical)", "Provide hands-on assistance",
      "Advise on, arrange, or provide practical help (e.g., from friends, relatives, colleagues, buddies or staff) for performance of the behavior.", true, "BCIO:007030"⟩,
     ⟨"BCT_12.5", "Adding objects to the environment", "Provide forms or documentation",
      "Add objects to the environment in order to facilitate performance of the behavior.", false, "BCIO:007156"⟩,
     ⟨"BCT_8.7", "Graded tasks", "Break application process into smaller steps",
      "Set easy-to-perform tasks, making them increasingly difficult, but achievable, until behavior is performed.", false, "BCIO:007091"⟩]
  else if protocol_id = "crisis_intervention" then
    [⟨"BCT_3.1", "Social support (unspecified)", "Provide emotional support and presence",
      "Advise on, arrange, or provide social support (e.g., from friends, relatives, colleagues, buddies or staff) or non-contingent praise or reward for performance of the behavior.", true, "BCIO:007029"⟩,
     ⟨"BCT_11.2", "Reduce negative emotions", "Help calm and manage distress",
      "Advise on ways of reducing negative emotions to facilitate performance of the behavior.", true, "BCIO:007127"⟩,
     ⟨"BCT_15.1", "Verbal persuasion about capability", "Build confidence they can get through this",
      "Tell the person that they can successfully perform the wanted behavior, arguing against self-doubts and asserting that they can and will succeed.", false, "BCIO:007194"⟩,
     ⟨"BCT_12.5", "Adding objects to the environment", "Connect to crisis resources",
      "Add objects to the environment in order to facilitate performance of the behavior.", false, "BCIO:007156"⟩]
  else if protocol_id = "peer_support_checkin" then
    [⟨"BCT_3.1", "Social support (unspecified)", "Provide supportive presence and listening",
      "Advise on, arrange, or provide social support (e.g., from friends, relatives, colleagues, buddies or staff) or non-contingent praise or reward for performance of the behavior.", true, "BCIO:007029"⟩,
     ⟨"BCT_1.5", "Review behavior goals", "Check in on progress toward goals",
      "Review behavior goal(s) jointly with the person and consider modifying goal(s) or behavior change strategy in light of achievement.", false, "BCIO:007013"⟩,
     ⟨"BCT_10.9", "Self-reward", "Encourage celebrating successes",
      "Prompt self-reward if and only if there has been effort and/or progress in performing the behavior.", false, "BCIO:007119"⟩,
     ⟨"BCT_15.3", "Focus on past success", "Remind of past achievements",
      "Advise to think about or list previous successes in performing the behavior.", false, "BCIO:007196"⟩]
  else if protocol_id = "referral_provision" then
    [⟨"BCT_12.5", "Adding objects to the environment", "Provide referral information or connection",
      "Add objects to the environment in order to facilitate performance of the behavior.", true, "BCIO:007156"⟩,
     ⟨"BCT_3.2", "Social support (practical)", "Arrange connection to service",
      "Advise on, arrange, or provide practical help (e.g., from friends, relatives, colleagues, buddies or staff) for performance of the behavior.", true, "BCIO:007030"⟩,
     ⟨"BCT_4.1", "Instruction on how to perform behavior", "Explain how to access the service",
      "Advise or agree on how to perform the behavior (includes 'skills training').", false, "BCIO:007037"⟩]
  else []

/-- Python dict lookup on the `confirmed_bcts` map. -/
def confirmedLookup (m : List (String × ConfirmedBct)) (k : String) : Option ConfirmedBct :=
  (m.find? (fun e => e.1 == k)).map (fun e => e.2)

/-- The first loop of `auto_tag_encounter`: one instance per catalog entry the
practitioner confirmed, numbering instances from 1.  Returns the final
`bct_index` and the instance list. -/
def confirmedInstances (encounter_id : String) (bcts : List BctDef)
    (confirmed : List (String × ConfirmedBct)) : Nat × List BctInstance :=
  bcts.foldl (fun st bd =>
    match confirmedLookup confirmed bd.bct_id with
    | none => st
    | some cb =>
        let idx := st.1 + 1
        let fid := cb.fidelity.getD "not_assessed"
        (idx, st.2 ++
          [⟨generate_bct_uri encounter_id idx, bd.bct_class, bd.bct_id,
            bd.practitioner_label, bd.lbl, fid, "bcio:Fidelity_" ++ fid,
            cb.notes.getD "", bd.auto, none⟩])) (0, [])

/-- The synthetic referral-technique instance appended by the auto-tag rule. -/
def referralInstance (encounter_id : String) (idx : Nat) (r : ReferralData) : BctInstance :=
  ⟨generate_bct_uri encounter_id idx, "BCIO:007156", "BCT_12.5",
   "Provide referral information or connection", "Adding objects to the environment",
   "delivered", "bcio:Fidelity_delivered",
   "Referral to " ++ r.category.getD "unspecified", true, some r⟩

/-- `auto_tag_encounter`: builds the confirmed instances, then, when referral
data says a referral was made and no instance's `bct_id` already contains
`"BCT_12.5"` (Python `in`, i.e. substring containment), appends exactly one
synthetic referral instance with fidelity forced to `delivered`. -/
def auto_tag_encounter (encounter_id protocol_id : String)
    (confirmed : List (String × ConfirmedBct)) (referral_data : Option ReferralData) :
    List BctInstance :=
  let st := confirmedInstances encounter_id (protocolBcts protocol_id) confirmed
  match referral_data with
  | some r =>
      if r.was_referral_made then
        if st.2.any (fun b => strContains b.bct_id ("BCT_12.5")) then st.2
        else st.2 ++ [referralInstance encounter_id (st.1 + 1) r]
      else st.2
  | none => st.2

/-! ## Persistence boundary: whole-store serialization

The repository persists the store with rdflib's Turtle writer/parser
(`BCIOGraph.serialize`/`save`, `load_graph`/`save_graph`), which are external
library code.  Per spec section 6 the encoding is free as long as the
round trip is lossless, so the artifact format is modelled here as a
line-oriented triple encoding: one line per triple, tab-terminated escaped
fields. -/

/-- Escape one character: backslash, tab and newline get backslash escapes, so
that a raw tab only ever terminates a field and a raw newline only ever
terminates a line. -/
def escCh (c : Char) : List Char :=
  if c = '\\' then ['\\', '\\']
  else if c = '\t' then ['\\', 't']
  else if c = '\n' then ['\\', 'n']
  else [c]

/-- Escape a field. -/
def escField (l : List Char) : List Char :=
  l.flatMap escCh

/-- Invert one escape pair. -/
def unescCh (c : Char) : Option Char :=
  if c = '\\' then some '\\'
  else if c = 't' then some '\t'
  else if c = 'n' then some '\n'
  else none

/-- The payload fields of a term, preceded by a one-character kind tag. -/
def nodeFields : Node → List (List Char)
  | .uri u => [['u'], u.data]
  | .lit (.langStr s lang) => [['l'], s.data, lang.data]
  | .lit (.intVal i) => [['i'], (intLex i).data]
  | .lit (.boolVal b) => [['b'], if b then ['t'] else ['f']]
  | .lit (.dateTime s) => [['d'], s.data]

/-- One serialized line: subject, predicate and term fields, each escaped and
tab-terminated, then a newline. -/
def encodeTriple (t : Triple) : List Char :=
  (([t.subj.data, t.pred.data] ++ nodeFields t.obj).flatMap
    (fun f => escField f ++ ['\t'])) ++ ['\n']

/-- Read one field: characters up to the next raw tab, undoing escapes.  A raw
newline or dangling escape inside a field is malformed. -/
def parseField : List Char → Option (List Char × List Char)
  | [] => none
  | c :: cs =>
      if c = '\t' then some ([], cs)
      else if c = '\\' then
        match cs with
        | [] => none
        | e :: cs' =>
            (unescCh e).bind (fun d =>
              (parseField cs').map (fun fr => (d :: fr.1, fr.2)))
      else if c = '\n' then none
      else (parseField cs).map (fun fr => (c :: fr.1, fr.2))

/-- Decode a term from its tag field and the remaining input. -/
def parseNode (tag : List Char) (cs : List Char) : Option (Node × List Char) :=
  if tag = ['u'] then
    (parseField cs).map (fun fr => (Node.uri ⟨fr.1⟩, fr.2))
  else if tag = ['l'] then
    (parseField cs).bind (fun fr1 =>
      (parseField fr1.2).map (fun fr2 => (Node.lit (.langStr ⟨fr1.1⟩ ⟨fr2.1⟩), fr2.2)))
  else if tag = ['i'] then
    (parseField cs).bind (fun fr =>
      (parseIntLex fr.1).map (fun i => (Node.lit (.intVal i), fr.2)))
  else if tag = ['b'] then
    (parseField cs).bind (fun fr =>
      if fr.1 = ['t'] then some (Node.lit (.boolVal true), fr.2)
      else if fr.1 = ['f'] then some (Node.lit (.boolVal false), fr.2)
      else none)
  else if tag = ['d'] then
    (parseField cs).map (fun fr => (Node.lit (.dateTime ⟨fr.1⟩), fr.2))
  else none

/-- Decode one line into a triple (requiring the terminating newline). -/
def parseTriple (cs : List Char) : Option (Triple × List Char) :=
  (parseField cs).bind (fun s1 =>
    (parseField s1.2).bind (fun s2 =>
      (parseField s2.2).bind (fun s3 =>
        (parseNode s3.1 s3.2).bind (fun s4 =>
          match s4.2 with
          | [] => none
          | c :: r5 =>
              if c = '\n' then some (⟨⟨s1.1⟩, ⟨s2.1⟩, s4.1⟩, r5) else none))))

theorem parseField_length_aux : ∀ (n : Nat) (cs f r : List Char), cs.length ≤ n →
    parseField cs = some (f, r) → r.length < cs.length := by
  intro n
  induction n with
  | zero =>
      intro cs f r hle h
      cases cs with
      | nil => simp [parseField] at h
      | cons c cs => simp at hle
  | succ n ih =>
      intro cs f r hle h
      cases cs with
      | nil => simp [parseField] at h
      | cons c cs =>
          cases cs with
          | nil =>
              simp only [parseField] at h
              by_cases h1 : c = '\t'
              · rw [if_pos h1] at h
                simp only [Option.some.injEq, Prod.mk.injEq] at h
                obtain ⟨rfl, rfl⟩ := h
                simp
              · rw [if_neg h1] at h
                split_ifs at h <;> simp [parseField] at h
          | cons e cs' =>
              simp only [parseField] at h
              by_cases h1 : c = '\t'
              · rw [if_pos h1] at h
                simp only [Option.some.injEq, Prod.mk.injEq] at h
                obtain ⟨rfl, rfl⟩ := h
                simp
              · rw [if_neg h1] at h
                by_cases h2 : c = '\\'
                · rw [if_pos h2] at h
                  rw [Option.bind_eq_some] at h
                  obtain ⟨d, -, h⟩ := h
                  rw [Option.map_eq_some'] at h
                  obtain ⟨fr, hp, heq⟩ := h
                  have hr : r = fr.2 := by
                    have := congrArg Prod.snd heq
                    simpa using this.symm
                  subst hr
                  have hle' : cs'.length ≤ n := by simp at hle; omega
                  have := ih cs' fr.1 fr.2 hle' (by simpa using hp)
                  simp
                  omega
                · rw [if_neg h2] at h
                  by_cases h3 : c = '\n'
                  · rw [if_pos h3] at h
                    exact absurd h (by simp)
                  · rw [if_neg h3] at h
                    rw [Option.map_eq_some'] at h
                    obtain ⟨fr, hp, heq⟩ := h
                    have hr : r = fr.2 := by
                      have := congrArg Prod.snd heq
                      simpa using this.symm
                    subst hr
                    have hle' : (e :: cs').length ≤ n := by simp at hle ⊢; omega
                    have := ih (e :: cs') fr.1 fr.2 hle' (by simpa using hp)
                    simp at this ⊢
                    omega

theorem parseField_length {cs f r : List Char} (h : parseField cs = some (f, r)) :
    r.length < cs.length :=
  parseField_length_aux cs.length cs f r le_rfl h

theorem parseNode_length {tag cs : List Char} {o : Node} {r : List Char}
    (h : parseNode tag cs = some (o, r)) : r.length < cs.length := by
  unfold parseNode at h
  by_cases t1 : tag = ['u']
  · rw [if_pos t1] at h
    rw [Option.map_eq_some'] at h
    obtain ⟨fr, hp, heq⟩ := h
    have : r = fr.2 := by simpa using (congrArg Prod.snd heq).symm
    subst this
    exact parseField_length (show parseField cs = some (fr.1, fr.2) by simpa using hp)
  · rw [if_neg t1] at h
    by_cases t2 : tag = ['l']
    · rw [if_pos t2] at h
      rw [Option.bind_eq_some] at h
      obtain ⟨fr1, hp1, h⟩ := h
      rw [Option.map_eq_some'] at h
      obtain ⟨fr2, hp2, heq⟩ := h
      have : r = fr2.2 := by simpa using (congrArg Prod.snd heq).symm
      subst this
      exact lt_trans
        (parseField_length (show parseField fr1.2 = some (fr2.1, fr2.2) by simpa using hp2))
        (parseField_length (show parseField cs = some (fr1.1, fr1.2) by simpa using hp1))
    · rw [if_neg t2] at h
      by_cases t3 : tag = ['i']
      · rw [if_pos t3] at h
        rw [Option.bind_eq_some] at h
        obtain ⟨fr, hp, h⟩ := h
        rw [Option.map_eq_some'] at h
        obtain ⟨i, -, heq⟩ := h
        have : r = fr.2 := by simpa using (congrArg Prod.snd heq).symm
        subst this
        exact parseField_length (show parseField cs = some (fr.1, fr.2) by simpa using hp)
      · rw [if_neg t3] at h
        by_cases t4 : tag = ['b']
        · rw [if_pos t4] at h
          rw [Option.bind_eq_some] at h
          obtain ⟨fr, hp, h⟩ := h
          have hr : r = fr.2 := by
            split_ifs at h <;> simp only [Option.some.injEq, Prod.mk.injEq] at h <;>
              exact h.2.symm
          subst hr
          exact parseField_length (show parseField cs = some (fr.1, fr.2) by simpa using hp)
        · rw [if_neg t4] at h
          by_cases t5 : tag = ['d']
          · rw [if_pos t5] at h
            rw [Option.map_eq_some'] at h
            obtain ⟨fr, hp, heq⟩ := h
            have : r = fr.2 := by simpa using (congrArg Prod.snd heq).symm
            subst this
            exact parseField_length (show parseField cs = some (fr.1, fr.2) by simpa using hp)
          · rw [if_neg t5] at h
            exact absurd h (by simp)

theorem parseTriple_length {cs : List Char} {t : Triple} {r : List Char}
    (h : parseTriple cs = some (t, r)) : r.length < cs.length := by
  unfold parseTriple at h
  rw [Option.bind_eq_some] at h
  obtain ⟨s1, h1, h⟩ := h
  rw [Option.bind_eq_some] at h
  obtain ⟨s2, h2, h⟩ := h
  rw [Option.bind_eq_some] at h
  obtain ⟨s3, h3, h⟩ := h
  rw [Option.bind_eq_some] at h
  obtain ⟨s4, h4, h⟩ := h
  rcases hs4 : s4.2 with _ | ⟨c4, r5⟩ <;> rw [hs4] at h
  · simp at h
  dsimp only at h
  split_ifs at h
  simp only [Option.some.injEq, Prod.mk.injEq] at h
  obtain ⟨-, rfl⟩ := h
  have l4 := parseNode_length h4
  have l3 := parseField_length (show parseField s2.2 = some (s3.1, s3.2) by simpa using h3)
  have l2 := parseField_length (show parseField s1.2 = some (s2.1, s2.2) by simpa using h2)
  have l1 := parseField_length (show parseField cs = some (s1.1, s1.2) by simpa using h1)
  rw [hs4] at l4
  simp at l4
  omega

/-- Decode a whole artifact: a sequence of lines. -/
def parseGraph (cs : List Char) : Option (List Triple) :=
  if cs = [] then some []
  else
    match h : parseTriple cs with
    | none => none
    | some (t, r) =>
        match parseGraph r with
        | none => none
        | some ts => some (t :: ts)
termination_by cs.length
decreasing_by exact parseTriple_length h

/-- Modelled from the spec: the repository serializes the whole store with
rdflib's Turtle writer (`BCIOGraph.serialize`, `save_graph`), an external
library; spec section 6 permits "any line-oriented or binary triple encoding
as long as round-trip holds", so the durable artifact is modelled as one
escaped tab-separated line per triple in store order. -/
def serializeStore (g : Graph) : String :=
  ⟨g.flatMap encodeTriple⟩

/-- Modelled from the spec: whole-store load (`load_graph`, rdflib `parse`);
an unparseable artifact fails (`ParseError`). -/
def loadStore (s : String) : Option Graph :=
  parseGraph s.data

/-! ## Decimal representation round trip -/

theorem natDigitsRev_lt (fuel : Nat) : ∀ (n : Nat), ∀ d ∈ natDigitsRev fuel n, d < 10 := by
  induction fuel with
  | zero => intro n d hd; simp [natDigitsRev] at hd
  | succ fuel ih =>
      intro n d hd
      simp only [natDigitsRev] at hd
      split_ifs at hd with h
      · simp at hd
      · rcases List.mem_cons.1 hd with rfl | hd
        · omega
        · exact ih (n / 10) d hd

theorem digitCh_toNat {d : Nat} (hd : d < 10) : (digitCh d).toNat = 48 + d := by
  interval_cases d <;> rfl

theorem foldl_digitCh (M : List Nat) (hM : ∀ d ∈ M, d < 10) : ∀ (a : Nat),
    (M.map digitCh).foldl (fun a c => 10 * a + (c.toNat - ('0').toNat)) a =
      M.foldl (fun x d => 10 * x + d) a := by
  induction M with
  | nil => intro a; rfl
  | cons d M ih =>
      intro a
      have hd : d < 10 := hM d (by simp)
      simp only [List.map_cons, List.foldl_cons, digitCh_toNat hd]
      rw [ih (fun x hx => hM x (by simp [hx]))]
      have h48 : ('0').toNat = 48 := rfl
      rw [h48]
      have he : 48 + d - 48 = d := by omega
      rw [he]

theorem foldr_be_comm (L : List Nat) :
    L.foldr (fun d y => 10 * y + d) 0 = L.foldr (fun d acc => d + 10 * acc) 0 := by
  induction L with
  | nil => rfl
  | cons d L ih => simp only [List.foldr_cons]; rw [ih]; omega

theorem valLE_natDigitsRev : ∀ (fuel n : Nat), n ≤ fuel →
    (natDigitsRev fuel n).foldr (fun d acc => d + 10 * acc) 0 = n := by
  intro fuel
  induction fuel with
  | zero =>
      intro n h
      interval_cases n
      rfl
  | succ fuel ih =>
      intro n h
      simp only [natDigitsRev]
      split_ifs with h0
      · simp [h0]
      · simp only [List.foldr_cons]
        rw [ih (n / 10) (by omega)]
        omega

theorem natLexChars_digit (n : Nat) : ∀ c ∈ natLexChars n,
    ('0').toNat ≤ c.toNat ∧ c.toNat ≤ ('9').toNat := by
  intro c hc
  unfold natLexChars at hc
  split_ifs at hc with h0
  · simp at hc
    subst hc
    decide
  · rw [List.mem_reverse, List.mem_map] at hc
    obtain ⟨d, hd, rfl⟩ := hc
    have : d < 10 := natDigitsRev_lt n n d hd
    rw [digitCh_toNat this]
    have h48 : ('0').toNat = 48 := rfl
    have h57 : ('9').toNat = 57 := rfl
    omega

theorem natLexChars_ne_nil (n : Nat) : natLexChars n ≠ [] := by
  unfold natLexChars
  split_ifs with h0
  · simp
  · cases n with
    | zero => exact absurd rfl h0
    | succ m => simp [natDigitsRev]

theorem parseDigits_natLexChars (n : Nat) : parseDigits (natLexChars n) = some n := by
  unfold parseDigits
  rw [if_neg (natLexChars_ne_nil n)]
  have hall : (natLexChars n).all
      (fun c => decide (('0').toNat ≤ c.toNat ∧ c.toNat ≤ ('9').toNat)) = true := by
    rw [List.all_eq_true]
    intro c hc
    exact decide_eq_true (natLexChars_digit n c hc)
  rw [if_pos hall]
  congr 1
  unfold natLexChars
  split_ifs with h0
  · subst h0; rfl
  · rw [← List.map_reverse]
    rw [foldl_digitCh _ (fun d hd => natDigitsRev_lt n n d (List.mem_reverse.1 hd)) 0]
    rw [List.foldl_reverse]
    rw [foldr_be_comm]
    exact valLE_natDigitsRev n n le_rfl

theorem natLexChars_head_not_minus (n : Nat) : ∀ c ∈ natLexChars n, c ≠ '-' := by
  intro c hc heq
  have := natLexChars_digit n c hc
  subst heq
  revert this
  decide

theorem parseIntLex_intLex (i : Int) : parseIntLex ((intLex i).data) = some i := by
  cases i with
  | ofNat n =>
      show parseIntLex (natLexChars n) = _
      rcases hne : natLexChars n with _ | ⟨c, rest⟩
      · exact absurd hne (natLexChars_ne_nil n)
      · have hc : c ≠ '-' := natLexChars_head_not_minus n c (by rw [hne]; simp)
        simp only [parseIntLex, if_neg hc]
        rw [← hne, parseDigits_natLexChars]
        rfl
  | negSucc n =>
      show parseIntLex ('-' :: natLexChars (n + 1)) = _
      simp only [parseIntLex, if_pos rfl]
      rw [parseDigits_natLexChars]
      have hval : -((n + 1 : Nat) : Int) = Int.negSucc n := by
        rw [Int.negSucc_eq]
        push_cast
        ring
      simp [Int.negSucc_eq]
      try omega

/-! ## Codec round trip -/

theorem parseField_cons (c : Char) (cs : List Char) :
    parseField (c :: cs) =
      if c = '\t' then some ([], cs)
      else if c = '\\' then
        match cs with
        | [] => none
        | e :: cs' =>
            (unescCh e).bind (fun d =>
              (parseField cs').map (fun fr => (d :: fr.1, fr.2)))
      else if c = '\n' then none
      else (parseField cs).map (fun fr => (c :: fr.1, fr.2)) := by
  cases cs <;> rfl

theorem parseField_escField : ∀ (f rest : List Char),
    parseField (escField f ++ '\t' :: rest) = some (f, rest) := by
  intro f
  induction f with
  | nil =>
      intro rest
      simp [escField, parseField_cons]
  | cons c f ih =>
      intro rest
      by_cases h1 : c = '\\'
      · subst h1
        have harg : escField ('\\' :: f) ++ '\t' :: rest =
            '\\' :: '\\' :: (escField f ++ '\t' :: rest) := by
          simp [escField, escCh]
        rw [harg, parseField_cons]
        simp [unescCh, ih]
      · by_cases h2 : c = '\t'
        · subst h2
          have harg : escField ('\t' :: f) ++ '\t' :: rest =
              '\\' :: 't' :: (escField f ++ '\t' :: rest) := by
            simp [escField, escCh]
          rw [harg, parseField_cons]
          simp [unescCh, ih]
        · by_cases h3 : c = '\n'
          · subst h3
            have harg : escField ('\n' :: f) ++ '\t' :: rest =
                '\\' :: 'n' :: (escField f ++ '\t' :: rest) := by
              simp [escField, escCh]
            rw [harg, parseField_cons]
            simp [unescCh, ih]
          · have harg : escField (c :: f) ++ '\t' :: rest =
                c :: (escField f ++ '\t' :: rest) := by
              simp [escField, escCh, h1, h2, h3]
            rw [harg, parseField_cons, if_neg h2, if_neg h1, if_neg h3, ih]
            rfl

theorem escField_tag_u : escField ['u'] = ['u'] := rfl
theorem escField_tag_l : escField ['l'] = ['l'] := rfl
theorem escField_tag_i : escField ['i'] = ['i'] := rfl
theorem escField_tag_b : escField ['b'] = ['b'] := rfl
theorem escField_tag_d : escField ['d'] = ['d'] := rfl
theorem escField_tag_t : escField ['t'] = ['t'] := rfl
theorem escField_tag_f : escField ['f'] = ['f'] := rfl

theorem parseField_one_u (rest : List Char) :
    parseField ('u' :: '\t' :: rest) = some (['u'], rest) := by simp [parseField_cons]
theorem parseField_one_l (rest : List Char) :
    parseField ('l' :: '\t' :: rest) = some (['l'], rest) := by simp [parseField_cons]
theorem parseField_one_i (rest : List Char) :
    parseField ('i' :: '\t' :: rest) = some (['i'], rest) := by simp [parseField_cons]
theorem parseField_one_b (rest : List Char) :
    parseField ('b' :: '\t' :: rest) = some (['b'], rest) := by simp [parseField_cons]
theorem parseField_one_d (rest : List Char) :
    parseField ('d' :: '\t' :: rest) = some (['d'], rest) := by simp [parseField_cons]
theorem parseField_one_t (rest : List Char) :
    parseField ('t' :: '\t' :: rest) = some (['t'], rest) := by simp [parseField_cons]
theorem parseField_one_f (rest : List Char) :
    parseField ('f' :: '\t' :: rest) = some (['f'], rest) := by simp [parseField_cons]

theorem parseTriple_encodeTriple (t : Triple) (rest : List Char) :
    parseTriple (encodeTriple t ++ rest) = some (t, rest) := by
  obtain ⟨s, p, o⟩ := t
  rcases o with u | v
  · simp [parseTriple, encodeTriple, nodeFields, parseNode, parseField_escField,
      escField_tag_u, parseField_one_u, List.append_assoc]
  · rcases v with ⟨sl, lg⟩ | i | b | sd
    · simp [parseTriple, encodeTriple, nodeFields, parseNode, parseField_escField,
        escField_tag_l, parseField_one_l, List.append_assoc]
    · simp [parseTriple, encodeTriple, nodeFields, parseNode, parseField_escField,
        parseIntLex_intLex, escField_tag_i, parseField_one_i, List.append_assoc]
    · cases b <;>
        simp [parseTriple, encodeTriple, nodeFields, parseNode, parseField_escField,
          escField_tag_b, escField_tag_t, escField_tag_f, parseField_one_b,
          parseField_one_t, parseField_one_f, List.append_assoc]
    · simp [parseTriple, encodeTriple, nodeFields, parseNode, parseField_escField,
        escField_tag_d, parseField_one_d, List.append_assoc]

theorem encodeTriple_ne_nil (t : Triple) : encodeTriple t ≠ [] := by
  simp [encodeTriple]

theorem parseGraph_flatMap : ∀ (g : Graph), parseGraph (g.flatMap encodeTriple) = some g := by
  intro g
  induction g with
  | nil =>
      rw [List.flatMap_nil, parseGraph]
      simp
  | cons t g ih =>
      rw [List.flatMap_cons, parseGraph]
      have hne : ¬(encodeTriple t ++ g.flatMap encodeTriple = []) := by
        intro h
        exact encodeTriple_ne_nil t (List.append_eq_nil.1 h).1
      rw [if_neg hne]
      split
      · next heq =>
          rw [parseTriple_encodeTriple] at heq
          exact absurd heq (by simp)
      · next t' r heq =>
          rw [parseTriple_encodeTriple] at heq
          simp only [Option.some.injEq, Prod.mk.injEq] at heq
          obtain ⟨rfl, rfl⟩ := heq
          rw [ih]

/-- Whole-store round trip: loading the serialized artifact recovers exactly
the stored triple list. -/
theorem loadStore_serializeStore (g : Graph) : loadStore (serializeStore g) = some g :=
  parseGraph_flatMap g

/-! ## String and URI lemmas -/

theorem str_data_append (s t : String) : (s ++ t).data = s.data ++ t.data := rfl

theorem str_append_cancel {a x y : String} (h : a ++ x = a ++ y) : x = y := by
  apply String.ext
  have hd := congrArg String.data h
  rw [str_data_append, str_data_append] at hd
  exact List.append_cancel_left hd

theorem takeWhile_of_all {α : Type} {p : α → Bool} :
    ∀ {l : List α}, (∀ a ∈ l, p a = true) → l.takeWhile p = l := by
  intro l
  induction l with
  | nil => intro _; rfl
  | cons a l ih =>
      intro h
      simp only [List.takeWhile_cons, h a (by simp), if_true]
      rw [ih (fun x hx => h x (by simp [hx]))]

/-- `participant_uri.split('/')[-1]` recovers the participant id whenever the
id contains no slash (every id the application generates is `P###`). -/
theorem lastSegBy_participantUri {pid : String} (hpid : ∀ c ∈ pid.data, c ≠ '/') :
    lastSegBy '/' (participantUri pid) = pid := by
  apply String.ext
  show ((participantUri pid).data.reverse.takeWhile (fun c => decide (c ≠ '/'))).reverse
      = pid.data
  have hdata : (participantUri pid).data =
      ("http://interventions.org/participant/").data ++ pid.data := rfl
  rw [hdata, List.reverse_append]
  have hall : ∀ c ∈ pid.data.reverse, (fun c => decide (c ≠ '/')) c = true := by
    intro c hc
    simpa using hpid c (List.mem_reverse.1 hc)
  rw [List.takeWhile_append, takeWhile_of_all hall, if_pos rfl]
  have hpre : (("http://interventions.org/participant/").data.reverse.takeWhile
      (fun c => decide (c ≠ '/'))) = [] := rfl
  rw [hpre]
  simp

theorem Timepoint.key_inj : ∀ (a b : Timepoint), a.key = b.key → a = b := by
  intro a b
  cases a <;> cases b <;> simp [Timepoint.key]

/-- Two barrier URIs over the same participant segment, domain and barrier
type differ whenever the timepoints differ. -/
theorem barrierUri_tp_ne {seg : String} {d : Domain} {bt : BarrierType}
    {tp tp' : Timepoint} (h : tp ≠ tp') : barrierUri seg d bt tp ≠ barrierUri seg d bt tp' := by
  intro he
  apply h
  unfold barrierUri at he
  have h1 := str_append_cancel he
  have h2 := str_append_cancel h1
  have h3 := str_append_cancel h2
  have h4 := str_append_cancel h3
  have h5 := str_append_cancel h4
  have h6 := str_append_cancel h5
  have h7 := str_append_cancel h6
  exact Timepoint.key_inj _ _ h7

theorem btCls_ne_reduction (bt : BarrierType) :
    barrierNS ++ bt.clsName ≠ barrierReductionCls := by
  cases bt <;> decide

theorem btCls_ne_increase (bt : BarrierType) :
    barrierNS ++ bt.clsName ≠ barrierIncreaseCls := by
  cases bt <;> decide

theorem btCls_ne_stable (bt : BarrierType) :
    barrierNS ++ bt.clsName ≠ barrierStableCls := by
  cases bt <;> decide

/-! ## Membership structure of the engine operations -/

theorem mem_foldl_addAll {α : Type} (f : α → List Triple) :
    ∀ (l : List α) (g : Graph) (x : Triple),
      x ∈ l.foldl (fun g a => addAll g (f a)) g ↔ x ∈ g ∨ ∃ a ∈ l, x ∈ f a := by
  intro l
  induction l with
  | nil => simp
  | cons a l ih =>
      intro g x
      show x ∈ l.foldl _ (addAll g (f a)) ↔ _
      rw [ih, mem_addAll]
      simp [or_assoc]

theorem nodup_foldl_addAll {α : Type} (f : α → List Triple) :
    ∀ (l : List α) {g : Graph}, g.Nodup →
      (l.foldl (fun g a => addAll g (f a)) g).Nodup := by
  intro l
  induction l with
  | nil => exact fun h => h
  | cons a l ih => exact fun h => ih (nodup_addAll h)

theorem mem_addBarrierAssessment {g : Graph} {pid : String} {d : Domain} {tp : Timepoint}
    {scores : List (BarrierType × Int)} {date : String} {x : Triple} :
    x ∈ addBarrierAssessment g pid d tp scores date ↔
      x ∈ g ∨
      x ∈ assessmentHeaderTriples (assessmentUri pid d tp date) pid d tp date ∨
      ∃ p ∈ scores,
        x ∈ barrierInstanceTriples (barrierUri (lastSegBy '/' (participantUri pid)) d p.1 tp)
              (participantUri pid) p.1 p.2 d tp date ++
            [⟨assessmentUri pid d tp date, bfoHasPart,
              .uri (barrierUri (lastSegBy '/' (participantUri pid)) d p.1 tp)⟩] := by
  unfold addBarrierAssessment
  rw [mem_foldl_addAll, mem_addAll]
  tauto

theorem nodup_addBarrierAssessment {g : Graph} {pid : String} {d : Domain} {tp : Timepoint}
    {scores : List (BarrierType × Int)} {date : String} (h : g.Nodup) :
    (addBarrierAssessment g pid d tp scores date).Nodup := by
  unfold addBarrierAssessment
  exact nodup_foldl_addAll _ scores (nodup_addAll h)

theorem getBarrierScore_eq_some {g : Graph} {bu : String} {b : Int}
    (hmem : (⟨bu, bcioHasSeverityScore, .lit (.intVal b)⟩ : Triple) ∈ g)
    (huniq : ∀ t ∈ g, t.subj = bu → t.pred = bcioHasSeverityScore →
      t = ⟨bu, bcioHasSeverityScore, .lit (.intVal b)⟩) :
    getBarrierScore g bu = some b := by
  unfold getBarrierScore
  have hmf : (⟨bu, bcioHasSeverityScore, .lit (.intVal b)⟩ : Triple) ∈
      g.filter (fun t => t.subj == bu && t.pred == bcioHasSeverityScore) := by
    simp [List.mem_filter, hmem]
  have hall : ∀ y ∈ g.filter (fun t => t.subj == bu && t.pred == bcioHasSeverityScore),
      y = ⟨bu, bcioHasSeverityScore, .lit (.intVal b)⟩ := by
    intro y hy
    have h := List.mem_filter.1 hy
    simp only [Bool.and_eq_true, beq_iff_eq] at h
    exact huniq y h.1 h.2.1 h.2.2
  rw [head?_of_mem_of_all_eq hmf hall]
  rfl

theorem getBarrierScore_eq_none {g : Graph} {bu : String}
    (h : ∀ t ∈ g, ¬(t.subj = bu ∧ t.pred = bcioHasSeverityScore)) :
    getBarrierScore g bu = none := by
  unfold getBarrierScore
  have hf : g.filter (fun t => t.subj == bu && t.pred == bcioHasSeverityScore) = [] := by
    rw [List.filter_eq_nil_iff]
    intro t ht
    simp only [Bool.and_eq_true, beq_iff_eq, not_and]
    exact fun h1 h2 => h t ht ⟨h1, h2⟩
  rw [hf]
  rfl

/-- Unfolding of a single-score follow-up call: record the assessment, add the
reassessment edge, then branch on the baseline severity lookup. -/
theorem addFollowUp_single (g0 : Graph) (pid : String) (d : Domain) (bt : BarrierType)
    (tp : Timepoint) (fscore : Int) (date : String) :
    addFollowUpAssessment g0 pid d tp [(bt, fscore)] date =
      (match getBarrierScore
          (addT (addBarrierAssessment g0 pid d tp [(bt, fscore)] date)
            ⟨barrierUri pid d bt tp, bcioIsReassessmentOf,
              .uri (barrierUri pid d bt .baseline)⟩)
          (barrierUri pid d bt .baseline) with
       | some b =>
           let gB := addT (addT (addBarrierAssessment g0 pid d tp [(bt, fscore)] date)
              ⟨barrierUri pid d bt tp, bcioIsReassessmentOf,
                .uri (barrierUri pid d bt .baseline)⟩)
              ⟨barrierUri pid d bt tp, bcioHasChangeFromBaseline, .lit (.intVal (fscore - b))⟩
           if fscore - b < 0 then
             addT gB ⟨barrierUri pid d bt tp, rdfType, .uri barrierReductionCls⟩
           else if fscore - b > 0 then
             addT gB ⟨barrierUri pid d bt tp, rdfType, .uri barrierIncreaseCls⟩
           else addT gB ⟨barrierUri pid d bt tp, rdfType, .uri barrierStableCls⟩
       | none =>
           addT (addBarrierAssessment g0 pid d tp [(bt, fscore)] date)
             ⟨barrierUri pid d bt tp, bcioIsReassessmentOf,
               .uri (barrierUri pid d bt .baseline)⟩) := by
  simp only [addFollowUpAssessment, List.foldl_cons, List.foldl_nil]

/-- Membership structure of a single-barrier assessment call. -/
theorem mem_addBarrierAssessment_single {g0 : Graph} {pid : String} {d : Domain}
    {tp : Timepoint} {bt : BarrierType} {fscore : Int} {date : String}
    (hseg : lastSegBy '/' (participantUri pid) = pid) (x : Triple) :
    x ∈ addBarrierAssessment g0 pid d tp [(bt, fscore)] date ↔
      x ∈ g0 ∨
      x ∈ assessmentHeaderTriples (assessmentUri pid d tp date) pid d tp date ∨
      x ∈ barrierInstanceTriples (barrierUri pid d bt tp) (participantUri pid)
            bt fscore d tp date ∨
      x = ⟨assessmentUri pid d tp date, bfoHasPart, .uri (barrierUri pid d bt tp)⟩ := by
  rw [mem_addBarrierAssessment, hseg]
  simp only [List.mem_singleton, List.mem_append, exists_eq_left]


set_option maxHeartbeats 1000000 in
/-- After a single-score follow-up assessment is recorded and its reassessment
edge added, the baseline severity lookup still returns the unique baseline
score. -/
theorem followUp_score_lookup
    (g0 : Graph) (pid : String) (d : Domain) (bt : BarrierType) (tp : Timepoint)
    (fscore b : Int) (date : String)
    (hpid : ∀ c ∈ pid.data, c ≠ '/')
    (htp : tp ≠ Timepoint.baseline)
    (hbase : (⟨barrierUri pid d bt .baseline, bcioHasSeverityScore,
        .lit (.intVal b)⟩ : Triple) ∈ g0)
    (huniq : ∀ t ∈ g0, t.subj = barrierUri pid d bt .baseline →
      t.pred = bcioHasSeverityScore →
      t = ⟨barrierUri pid d bt .baseline, bcioHasSeverityScore, .lit (.intVal b)⟩) :
    getBarrierScore
      (addT (addBarrierAssessment g0 pid d tp [(bt, fscore)] date)
        ⟨barrierUri pid d bt tp, bcioIsReassessmentOf, .uri (barrierUri pid d bt .baseline)⟩)
      (barrierUri pid d bt .baseline) = some b := by
  have hseg := lastSegBy_participantUri hpid
  have memg1 := fun x =>
    @mem_addBarrierAssessment_single g0 pid d tp bt fscore date hseg x
  apply getBarrierScore_eq_some
  · rw [mem_addT, memg1]
    exact Or.inl (Or.inl hbase)
  · intro t ht hs hp
    rw [mem_addT, memg1] at ht
    rcases ht with (h0 | hh | hi | hpart) | hr
    · exact huniq t h0 hs hp
    · simp only [assessmentHeaderTriples, List.mem_cons, List.not_mem_nil, or_false] at hh
      rcases hh with rfl | rfl | rfl | rfl | rfl | rfl <;>
        exact absurd hp (by dsimp only; decide)
    · simp only [barrierInstanceTriples, List.mem_cons, List.not_mem_nil, or_false] at hi
      rcases hi with rfl | rfl | rfl | rfl | rfl | rfl | rfl | rfl | rfl <;>
        first
          | exact absurd hp (by dsimp only; decide)
          | exact absurd hs (barrierUri_tp_ne htp)
    · subst hpart
      exact absurd hp (by dsimp only; decide)
    · subst hr
      exact absurd hp (by dsimp only; decide)

set_option maxHeartbeats 1000000 in
/-- Before the classification step of a follow-up, no outcome-class typing of
the follow-up barrier node is present. -/
theorem followUp_noCls
    (g0 : Graph) (pid : String) (d : Domain) (bt : BarrierType) (tp : Timepoint)
    (fscore ch : Int) (date : String)
    (hpid : ∀ c ∈ pid.data, c ≠ '/')
    (hfresh : ∀ t ∈ g0, t.subj ≠ barrierUri pid d bt tp) :
    ∀ (cls : String), cls ≠ barrierNS ++ bt.clsName → cls ≠ bfoQualityCls →
      cls ≠ bcioProcessCls →
      ¬((⟨barrierUri pid d bt tp, rdfType, .uri cls⟩ : Triple) ∈
        addT (addT (addBarrierAssessment g0 pid d tp [(bt, fscore)] date)
          ⟨barrierUri pid d bt tp, bcioIsReassessmentOf, .uri (barrierUri pid d bt .baseline)⟩)
          ⟨barrierUri pid d bt tp, bcioHasChangeFromBaseline, .lit (.intVal ch)⟩) := by
  have hseg := lastSegBy_participantUri hpid
  have memg1 := fun x =>
    @mem_addBarrierAssessment_single g0 pid d tp bt fscore date hseg x
  intro cls h1 h2 h3 hmem
  rw [mem_addT, mem_addT, memg1] at hmem
  rcases hmem with ((h0 | hh | hi | hpart) | hr) | hc
  · exact hfresh _ h0 rfl
  · simp only [assessmentHeaderTriples, List.mem_cons, List.not_mem_nil, or_false] at hh
    rcases hh with h | h | h | h | h | h <;> injection h with hs' hp' ho' <;>
      first
        | exact absurd hp' (by decide)
        | exact h3 (Node.uri.inj ho')
  · simp only [barrierInstanceTriples, List.mem_cons, List.not_mem_nil, or_false] at hi
    rcases hi with h | h | h | h | h | h | h | h | h <;> injection h with hs' hp' ho' <;>
      first
        | exact absurd hp' (by decide)
        | exact h1 (Node.uri.inj ho')
        | exact h2 (Node.uri.inj ho')
  · injection hpart with hs' hp' ho'
    exact absurd hp' (by decide)
  · injection hr with hs' hp' ho'
    exact absurd hp' (by decide)
  · injection hc with hs' hp' ho'
    exact absurd hp' (by decide)

set_option maxHeartbeats 2000000 in
/-- The reassessment and change edges of a single-score follow-up are present
exactly once, whatever classification triple ends the operation. -/
theorem followUp_core
    (g0 : Graph) (pid : String) (d : Domain) (bt : BarrierType) (tp : Timepoint)
    (fscore ch : Int) (date : String) (clsO : Node)
    (hnd : g0.Nodup)
    (hpid : ∀ c ∈ pid.data, c ≠ '/')
    (hfresh : ∀ t ∈ g0, t.subj ≠ barrierUri pid d bt tp) :
    ((⟨barrierUri pid d bt tp, bcioIsReassessmentOf,
        .uri (barrierUri pid d bt .baseline)⟩ : Triple) ∈
      addT (addT (addT (addBarrierAssessment g0 pid d tp [(bt, fscore)] date)
        ⟨barrierUri pid d bt tp, bcioIsReassessmentOf, .uri (barrierUri pid d bt .baseline)⟩)
        ⟨barrierUri pid d bt tp, bcioHasChangeFromBaseline, .lit (.intVal ch)⟩)
        ⟨barrierUri pid d bt tp, rdfType, clsO⟩) ∧
    edgeCount (addT (addT (addT (addBarrierAssessment g0 pid d tp [(bt, fscore)] date)
        ⟨barrierUri pid d bt tp, bcioIsReassessmentOf, .uri (barrierUri pid d bt .baseline)⟩)
        ⟨barrierUri pid d bt tp, bcioHasChangeFromBaseline, .lit (.intVal ch)⟩)
        ⟨barrierUri pid d bt tp, rdfType, clsO⟩)
      (barrierUri pid d bt tp) bcioIsReassessmentOf = 1 ∧
    ((⟨barrierUri pid d bt tp, bcioHasChangeFromBaseline,
        .lit (.intVal ch)⟩ : Triple) ∈
      addT (addT (addT (addBarrierAssessment g0 pid d tp [(bt, fscore)] date)
        ⟨barrierUri pid d bt tp, bcioIsReassessmentOf, .uri (barrierUri pid d bt .baseline)⟩)
        ⟨barrierUri pid d bt tp, bcioHasChangeFromBaseline, .lit (.intVal ch)⟩)
        ⟨barrierUri pid d bt tp, rdfType, clsO⟩) ∧
    edgeCount (addT (addT (addT (addBarrierAssessment g0 pid d tp [(bt, fscore)] date)
        ⟨barrierUri pid d bt tp, bcioIsReassessmentOf, .uri (barrierUri pid d bt .baseline)⟩)
        ⟨barrierUri pid d bt tp, bcioHasChangeFromBaseline, .lit (.intVal ch)⟩)
        ⟨barrierUri pid d bt tp, rdfType, clsO⟩)
      (barrierUri pid d bt tp) bcioHasChangeFromBaseline = 1 := by
  have hseg := lastSegBy_participantUri hpid
  have memg1 := fun x =>
    @mem_addBarrierAssessment_single g0 pid d tp bt fscore date hseg x
  have hndg1 : (addBarrierAssessment g0 pid d tp [(bt, fscore)] date).Nodup :=
    nodup_addBarrierAssessment hnd
  have hmemR : (⟨barrierUri pid d bt tp, bcioIsReassessmentOf,
      .uri (barrierUri pid d bt .baseline)⟩ : Triple) ∈
      addT (addT (addT (addBarrierAssessment g0 pid d tp [(bt, fscore)] date)
        ⟨barrierUri pid d bt tp, bcioIsReassessmentOf, .uri (barrierUri pid d bt .baseline)⟩)
        ⟨barrierUri pid d bt tp, bcioHasChangeFromBaseline, .lit (.intVal ch)⟩)
        ⟨barrierUri pid d bt tp, rdfType, clsO⟩ := by
    rw [mem_addT, mem_addT, mem_addT]
    exact Or.inl (Or.inl (Or.inr rfl))
  have hmemC : (⟨barrierUri pid d bt tp, bcioHasChangeFromBaseline,
      .lit (.intVal ch)⟩ : Triple) ∈
      addT (addT (addT (addBarrierAssessment g0 pid d tp [(bt, fscore)] date)
        ⟨barrierUri pid d bt tp, bcioIsReassessmentOf, .uri (barrierUri pid d bt .baseline)⟩)
        ⟨barrierUri pid d bt tp, bcioHasChangeFromBaseline, .lit (.intVal ch)⟩)
        ⟨barrierUri pid d bt tp, rdfType, clsO⟩ := by
    rw [mem_addT, mem_addT]
    exact Or.inl (Or.inr rfl)
  have hndAll : (addT (addT (addT (addBarrierAssessment g0 pid d tp [(bt, fscore)] date)
      ⟨barrierUri pid d bt tp, bcioIsReassessmentOf, .uri (barrierUri pid d bt .baseline)⟩)
      ⟨barrierUri pid d bt tp, bcioHasChangeFromBaseline, .lit (.intVal ch)⟩)
      ⟨barrierUri pid d bt tp, rdfType, clsO⟩).Nodup :=
    nodup_addT (nodup_addT (nodup_addT hndg1))
  refine ⟨hmemR, ?_, hmemC, ?_⟩
  · apply edgeCount_eq_one hndAll hmemR rfl rfl
    intro t ht hs hp
    rw [mem_addT, mem_addT, mem_addT, memg1] at ht
    rcases ht with (((h0 | hh | hi | hpart) | hr) | hc) | hcls
    · exact absurd hs (hfresh t h0)
    · simp only [assessmentHeaderTriples, List.mem_cons, List.not_mem_nil, or_false] at hh
      rcases hh with rfl | rfl | rfl | rfl | rfl | rfl <;>
        exact absurd hp (by dsimp only; decide)
    · simp only [barrierInstanceTriples, List.mem_cons, List.not_mem_nil, or_false] at hi
      rcases hi with rfl | rfl | rfl | rfl | rfl | rfl | rfl | rfl | rfl <;>
        exact absurd hp (by dsimp only; decide)
    · subst hpart
      exact absurd hp (by dsimp only; decide)
    · subst hr
      rfl
    · subst hc
      exact absurd hp (by dsimp only; decide)
    · subst hcls
      exact absurd hp (by dsimp only; decide)
  · apply edgeCount_eq_one hndAll hmemC rfl rfl
    intro t ht hs hp
    rw [mem_addT, mem_addT, mem_addT, memg1] at ht
    rcases ht with (((h0 | hh | hi | hpart) | hr) | hc) | hcls
    · exact absurd hs (hfresh t h0)
    · simp only [assessmentHeaderTriples, List.mem_cons, List.not_mem_nil, or_false] at hh
      rcases hh with rfl | rfl | rfl | rfl | rfl | rfl <;>
        exact absurd hp (by dsimp only; decide)
    · simp only [barrierInstanceTriples, List.mem_cons, List.not_mem_nil, or_false] at hi
      rcases hi with rfl | rfl | rfl | rfl | rfl | rfl | rfl | rfl | rfl <;>
        exact absurd hp (by dsimp only; decide)
    · subst hpart
      exact absurd hp (by dsimp only; decide)
    · subst hr
      exact absurd hp (by dsimp only; decide)
    · subst hc
      rfl
    · subst hcls
      exact absurd hp (by dsimp only; decide)

set_option maxHeartbeats 1000000 in
/-- A single-barrier follow-up over a store holding a unique baseline severity
adds exactly one reassessment edge to the baseline URI and exactly one change
edge valued `followup - baseline`. -/
theorem followUp_edges
    (g0 : Graph) (pid : String) (d : Domain) (bt : BarrierType) (tp : Timepoint)
    (fscore b : Int) (date : String)
    (hnd : g0.Nodup)
    (hpid : ∀ c ∈ pid.data, c ≠ '/')
    (htp : tp ≠ Timepoint.baseline)
    (hbase : (⟨barrierUri pid d bt .baseline, bcioHasSeverityScore,
        .lit (.intVal b)⟩ : Triple) ∈ g0)
    (huniq : ∀ t ∈ g0, t.subj = barrierUri pid d bt .baseline →
      t.pred = bcioHasSeverityScore →
      t = ⟨barrierUri pid d bt .baseline, bcioHasSeverityScore, .lit (.intVal b)⟩)
    (hfresh : ∀ t ∈ g0, t.subj ≠ barrierUri pid d bt tp) :
    ((⟨barrierUri pid d bt tp, bcioIsReassessmentOf,
        .uri (barrierUri pid d bt .baseline)⟩ : Triple)
      ∈ addFollowUpAssessment g0 pid d tp [(bt, fscore)] date) ∧
    edgeCount (addFollowUpAssessment g0 pid d tp [(bt, fscore)] date)
      (barrierUri pid d bt tp) bcioIsReassessmentOf = 1 ∧
    ((⟨barrierUri pid d bt tp, bcioHasChangeFromBaseline,
        .lit (.intVal (fscore - b))⟩ : Triple)
      ∈ addFollowUpAssessment g0 pid d tp [(bt, fscore)] date) ∧
    edgeCount (addFollowUpAssessment g0 pid d tp [(bt, fscore)] date)
      (barrierUri pid d bt tp) bcioHasChangeFromBaseline = 1 := by
  rw [addFollowUp_single,
    followUp_score_lookup g0 pid d bt tp fscore b date hpid htp hbase huniq]
  dsimp only
  rcases lt_trichotomy (fscore - b) 0 with hlt | heq0 | hgt
  · rw [if_pos hlt]
    exact followUp_core g0 pid d bt tp fscore (fscore - b) date
      (.uri barrierReductionCls) hnd hpid hfresh
  · rw [if_neg (by omega : ¬fscore - b < 0), if_neg (by omega : ¬fscore - b > 0)]
    exact followUp_core g0 pid d bt tp fscore (fscore - b) date
      (.uri barrierStableCls) hnd hpid hfresh
  · rw [if_neg (by omega : ¬fscore - b < 0), if_pos hgt]
    exact followUp_core g0 pid d bt tp fscore (fscore - b) date
      (.uri barrierIncreaseCls) hnd hpid hfresh

set_option maxHeartbeats 1000000 in
/-- The follow-up barrier is typed `Barrier_Reduction` iff the change is
negative. -/
theorem followUp_class_reduction
    (g0 : Graph) (pid : String) (d : Domain) (bt : BarrierType) (tp : Timepoint)
    (fscore b : Int) (date : String)
    (hpid : ∀ c ∈ pid.data, c ≠ '/')
    (htp : tp ≠ Timepoint.baseline)
    (hbase : (⟨barrierUri pid d bt .baseline, bcioHasSeverityScore,
        .lit (.intVal b)⟩ : Triple) ∈ g0)
    (huniq : ∀ t ∈ g0, t.subj = barrierUri pid d bt .baseline →
      t.pred = bcioHasSeverityScore →
      t = ⟨barrierUri pid d bt .baseline, bcioHasSeverityScore, .lit (.intVal b)⟩)
    (hfresh : ∀ t ∈ g0, t.subj ≠ barrierUri pid d bt tp) :
    ((⟨barrierUri pid d bt tp, rdfType, .uri barrierReductionCls⟩ : Triple)
      ∈ addFollowUpAssessment g0 pid d tp [(bt, fscore)] date) ↔ fscore - b < 0 := by
  rw [addFollowUp_single,
    followUp_score_lookup g0 pid d bt tp fscore b date hpid htp hbase huniq]
  dsimp only
  rcases lt_trichotomy (fscore - b) 0 with hlt | heq0 | hgt
  · rw [if_pos hlt]
    exact ⟨fun _ => hlt, fun _ => by rw [mem_addT]; exact Or.inr rfl⟩
  · rw [if_neg (by omega : ¬fscore - b < 0), if_neg (by omega : ¬fscore - b > 0)]
    constructor
    · intro hmem
      rw [mem_addT] at hmem
      rcases hmem with hmem | hmem
      · exact absurd hmem (followUp_noCls g0 pid d bt tp fscore (fscore - b) date hpid
          hfresh barrierReductionCls (btCls_ne_reduction bt).symm (by decide) (by decide))
      · injection hmem with hs' hp' ho'
        exact absurd (Node.uri.inj ho') (by decide)
    · intro h
      exact absurd h (by omega)
  · rw [if_neg (by omega : ¬fscore - b < 0), if_pos hgt]
    constructor
    · intro hmem
      rw [mem_addT] at hmem
      rcases hmem with hmem | hmem
      · exact absurd hmem (followUp_noCls g0 pid d bt tp fscore (fscore - b) date hpid
          hfresh barrierReductionCls (btCls_ne_reduction bt).symm (by decide) (by decide))
      · injection hmem with hs' hp' ho'
        exact absurd (Node.uri.inj ho') (by decide)
    · intro h
      exact absurd h (by omega)

set_option maxHeartbeats 1000000 in
/-- The follow-up barrier is typed `Barrier_Stable` iff the change is zero. -/
theorem followUp_class_stable
    (g0 : Graph) (pid : String) (d : Domain) (bt : BarrierType) (tp : Timepoint)
    (fscore b : Int) (date : String)
    (hpid : ∀ c ∈ pid.data, c ≠ '/')
    (htp : tp ≠ Timepoint.baseline)
    (hbase : (⟨barrierUri pid d bt .baseline, bcioHasSeverityScore,
        .lit (.intVal b)⟩ : Triple) ∈ g0)
    (huniq : ∀ t ∈ g0, t.subj = barrierUri pid d bt .baseline →
      t.pred = bcioHasSeverityScore →
      t = ⟨barrierUri pid d bt .baseline, bcioHasSeverityScore, .lit (.intVal b)⟩)
    (hfresh : ∀ t ∈ g0, t.subj ≠ barrierUri pid d bt tp) :
    ((⟨barrierUri pid d bt tp, rdfType, .uri barrierStableCls⟩ : Triple)
      ∈ addFollowUpAssessment g0 pid d tp [(bt, fscore)] date) ↔ fscore - b = 0 := by
  rw [addFollowUp_single,
    followUp_score_lookup g0 pid d bt tp fscore b date hpid htp hbase huniq]
  dsimp only
  rcases lt_trichotomy (fscore - b) 0 with hlt | heq0 | hgt
  · rw [if_pos hlt]
    constructor
    · intro hmem
      rw [mem_addT] at hmem
      rcases hmem with hmem | hmem
      · exact absurd hmem (followUp_noCls g0 pid d bt tp fscore (fscore - b) date hpid
          hfresh barrierStableCls (btCls_ne_stable bt).symm (by decide) (by decide))
      · injection hmem with hs' hp' ho'
        exact absurd (Node.uri.inj ho') (by decide)
    · intro h
      exact absurd h (by omega)
  · rw [if_neg (by omega : ¬fscore - b < 0), if_neg (by omega : ¬fscore - b > 0)]
    exact ⟨fun _ => heq0, fun _ => by rw [mem_addT]; exact Or.inr rfl⟩
  · rw [if_neg (by omega : ¬fscore - b < 0), if_pos hgt]
    constructor
    · intro hmem
      rw [mem_addT] at hmem
      rcases hmem with hmem | hmem
      · exact absurd hmem (followUp_noCls g0 pid d bt tp fscore (fscore - b) date hpid
          hfresh barrierStableCls (btCls_ne_stable bt).symm (by decide) (by decide))
      · injection hmem with hs' hp' ho'
        exact absurd (Node.uri.inj ho') (by decide)
    · intro h
      exact absurd h (by omega)

set_option maxHeartbeats 1000000 in
/-- The follow-up barrier is typed `Barrier_Increase` iff the change is
positive. -/
theorem followUp_class_increase
    (g0 : Graph) (pid : String) (d : Domain) (bt : BarrierType) (tp : Timepoint)
    (fscore b : Int) (date : String)
    (hpid : ∀ c ∈ pid.data, c ≠ '/')
    (htp : tp ≠ Timepoint.baseline)
    (hbase : (⟨barrierUri pid d bt .baseline, bcioHasSeverityScore,
        .lit (.intVal b)⟩ : Triple) ∈ g0)
    (huniq : ∀ t ∈ g0, t.subj = barrierUri pid d bt .baseline →
      t.pred = bcioHasSeverityScore →
      t = ⟨barrierUri pid d bt .baseline, bcioHasSeverityScore, .lit (.intVal b)⟩)
    (hfresh : ∀ t ∈ g0, t.subj ≠ barrierUri pid d bt tp) :
    ((⟨barrierUri pid d bt tp, rdfType, .uri barrierIncreaseCls⟩ : Triple)
      ∈ addFollowUpAssessment g0 pid d tp [(bt, fscore)] date) ↔ 0 < fscore - b := by
  rw [addFollowUp_single,
    followUp_score_lookup g0 pid d bt tp fscore b date hpid htp hbase huniq]
  dsimp only
  rcases lt_trichotomy (fscore - b) 0 with hlt | heq0 | hgt
  · rw [if_pos hlt]
    constructor
    · intro hmem
      rw [mem_addT] at hmem
      rcases hmem with hmem | hmem
      · exact absurd hmem (followUp_noCls g0 pid d bt tp fscore (fscore - b) date hpid
          hfresh barrierIncreaseCls (btCls_ne_increase bt).symm (by decide) (by decide))
      · injection hmem with hs' hp' ho'
        exact absurd (Node.uri.inj ho') (by decide)
    · intro h
      exact absurd h (by omega)
  · rw [if_neg (by omega : ¬fscore - b < 0), if_neg (by omega : ¬fscore - b > 0)]
    constructor
    · intro hmem
      rw [mem_addT] at hmem
      rcases hmem with hmem | hmem
      · exact absurd hmem (followUp_noCls g0 pid d bt tp fscore (fscore - b) date hpid
          hfresh barrierIncreaseCls (btCls_ne_increase bt).symm (by decide) (by decide))
      · injection hmem with hs' hp' ho'
        exact absurd (Node.uri.inj ho') (by decide)
    · intro h
      exact absurd h (by omega)
  · rw [if_neg (by omega : ¬fscore - b < 0), if_pos hgt]
    exact ⟨fun _ => hgt, fun _ => by rw [mem_addT]; exact Or.inr rfl⟩

set_option maxHeartbeats 1000000 in
/-- A single-barrier follow-up over a store with no baseline severity for the
(participant, domain, barrier type): the follow-up barrier is still recorded,
the `is_reassessment_of` edge is still added (pointing at the absent baseline
URI), and no change edge is written. -/
theorem followUp_no_baseline
    (g0 : Graph) (pid : String) (d : Domain) (bt : BarrierType) (tp : Timepoint)
    (fscore : Int) (date : String)
    (hnd : g0.Nodup)
    (hpid : ∀ c ∈ pid.data, c ≠ '/')
    (htp : tp ≠ Timepoint.baseline)
    (hnobase : ∀ t ∈ g0, ¬(t.subj = barrierUri pid d bt .baseline ∧
      t.pred = bcioHasSeverityScore))
    (hfresh : ∀ t ∈ g0, t.subj ≠ barrierUri pid d bt tp) :
    ((⟨barrierUri pid d bt tp, bcioHasSeverityScore, .lit (.intVal fscore)⟩ : Triple)
      ∈ addFollowUpAssessment g0 pid d tp [(bt, fscore)] date) ∧
    ((⟨barrierUri pid d bt tp, bcioIsReassessmentOf,
        .uri (barrierUri pid d bt .baseline)⟩ : Triple)
      ∈ addFollowUpAssessment g0 pid d tp [(bt, fscore)] date) ∧
    edgeCount (addFollowUpAssessment g0 pid d tp [(bt, fscore)] date)
      (barrierUri pid d bt tp) bcioIsReassessmentOf = 1 ∧
    edgeCount (addFollowUpAssessment g0 pid d tp [(bt, fscore)] date)
      (barrierUri pid d bt tp) bcioHasChangeFromBaseline = 0 := by
  have hseg := lastSegBy_participantUri hpid
  have memg1 := fun x =>
    @mem_addBarrierAssessment_single g0 pid d tp bt fscore date hseg x
  have hndg1 : (addBarrierAssessment g0 pid d tp [(bt, fscore)] date).Nodup :=
    nodup_addBarrierAssessment hnd
  have hnone : getBarrierScore
      (addT (addBarrierAssessment g0 pid d tp [(bt, fscore)] date)
        ⟨barrierUri pid d bt tp, bcioIsReassessmentOf, .uri (barrierUri pid d bt .baseline)⟩)
      (barrierUri pid d bt .baseline) = none := by
    apply getBarrierScore_eq_none
    intro t ht hc
    rw [mem_addT, memg1] at ht
    rcases ht with (h0 | hh | hi | hpart) | hr
    · exact hnobase t h0 hc
    · simp only [assessmentHeaderTriples, List.mem_cons, List.not_mem_nil, or_false] at hh
      rcases hh with rfl | rfl | rfl | rfl | rfl | rfl <;>
        exact absurd hc.2 (by dsimp only; decide)
    · simp only [barrierInstanceTriples, List.mem_cons, List.not_mem_nil, or_false] at hi
      rcases hi with rfl | rfl | rfl | rfl | rfl | rfl | rfl | rfl | rfl <;>
        first
          | exact absurd hc.2 (by dsimp only; decide)
          | exact absurd hc.1 (barrierUri_tp_ne htp)
    · subst hpart
      exact absurd hc.2 (by dsimp only; decide)
    · subst hr
      exact absurd hc.2 (by dsimp only; decide)
  rw [addFollowUp_single, hnone]
  dsimp only
  have hmemR : (⟨barrierUri pid d bt tp, bcioIsReassessmentOf,
      .uri (barrierUri pid d bt .baseline)⟩ : Triple) ∈
      addT (addBarrierAssessment g0 pid d tp [(bt, fscore)] date)
        ⟨barrierUri pid d bt tp, bcioIsReassessmentOf,
          .uri (barrierUri pid d bt .baseline)⟩ := by
    rw [mem_addT]
    exact Or.inr rfl
  refine ⟨?_, hmemR, ?_, ?_⟩
  · rw [mem_addT, memg1]
    refine Or.inl (Or.inr (Or.inr (Or.inl ?_)))
    simp [barrierInstanceTriples]
  · apply edgeCount_eq_one (nodup_addT hndg1) hmemR rfl rfl
    intro t ht hs hp
    rw [mem_addT, memg1] at ht
    rcases ht with (h0 | hh | hi | hpart) | hr
    · exact absurd hs (hfresh t h0)
    · simp only [assessmentHeaderTriples, List.mem_cons, List.not_mem_nil, or_false] at hh
      rcases hh with rfl | rfl | rfl | rfl | rfl | rfl <;>
        exact absurd hp (by dsimp only; decide)
    · simp only [barrierInstanceTriples, List.mem_cons, List.not_mem_nil, or_false] at hi
      rcases hi with rfl | rfl | rfl | rfl | rfl | rfl | rfl | rfl | rfl <;>
        exact absurd hp (by dsimp only; decide)
    · subst hpart
      exact absurd hp (by dsimp only; decide)
    · subst hr
      rfl
  · apply edgeCount_eq_zero
    intro t ht hc
    rw [mem_addT, memg1] at ht
    rcases ht with (h0 | hh | hi | hpart) | hr
    · exact absurd hc.1 (hfresh t h0)
    · simp only [assessmentHeaderTriples, List.mem_cons, List.not_mem_nil, or_false] at hh
      rcases hh with rfl | rfl | rfl | rfl | rfl | rfl <;>
        exact absurd hc.2 (by dsimp only; decide)
    · simp only [barrierInstanceTriples, List.mem_cons, List.not_mem_nil, or_false] at hi
      rcases hi with rfl | rfl | rfl | rfl | rfl | rfl | rfl | rfl | rfl <;>
        exact absurd hc.2 (by dsimp only; decide)
    · subst hpart
      exact absurd hc.2 (by dsimp only; decide)
    · subst hr
      exact absurd hc.2 (by dsimp only; decide)

/-! ## Query-layer lemmas -/

theorem pyMapM_forward {α β : Type} (f : α → Option β) :
    ∀ {l : List α} {ys : List β}, pyMapM f l = some ys →
      ∀ x ∈ l, ∃ y ∈ ys, f x = some y := by
  intro l
  induction l with
  | nil => intro ys h x hx; cases hx
  | cons a l ih =>
      intro ys h x hx
      unfold pyMapM at h
      rcases ha : f a with _ | y <;> rw [ha] at h
      · cases h
      · rcases hl : pyMapM f l with _ | ys' <;> rw [hl] at h
        · cases h
        · obtain rfl := Option.some.inj h
          rcases List.mem_cons.1 hx with rfl | hx
          · exact ⟨y, by simp, ha⟩
          · obtain ⟨y', hy', hf⟩ := ih hl x hx
            exact ⟨y', by simp [hy'], hf⟩

theorem pyMapM_backward {α β : Type} (f : α → Option β) :
    ∀ {l : List α} {ys : List β}, pyMapM f l = some ys →
      ∀ y ∈ ys, ∃ x ∈ l, f x = some y := by
  intro l
  induction l with
  | nil =>
      intro ys h y hy
      unfold pyMapM at h
      obtain rfl := Option.some.inj h
      cases hy
  | cons a l ih =>
      intro ys h y hy
      unfold pyMapM at h
      rcases ha : f a with _ | y' <;> rw [ha] at h
      · cases h
      · rcases hl : pyMapM f l with _ | ys' <;> rw [hl] at h
        · cases h
        · obtain rfl := Option.some.inj h
          rcases List.mem_cons.1 hy with rfl | hy
          · exact ⟨a, by simp, ha⟩
          · obtain ⟨x, hx, hf⟩ := ih hl y hy
            exact ⟨x, by simp [hx], hf⟩

theorem intLex_ne_empty (i : Int) : intLex i ≠ "" := by
  intro h
  have hd := congrArg String.data h
  cases i with
  | ofNat n =>
      exact natLexChars_ne_nil n (by simpa [intLex, natLex] using hd)
  | negSucc n =>
      simp [intLex, natLex, str_data_append] at hd

theorem truthy_intVal (c : Int) : (Node.lit (.intVal c)).truthy = true := by
  simp only [Node.truthy, LitVal.lexical]
  exact decide_eq_true (intLex_ne_empty c)

theorem mem_objectsOf {g : Graph} {s p : String} {n : Node} :
    n ∈ objectsOf g s p ↔ (⟨s, p, n⟩ : Triple) ∈ g := by
  unfold objectsOf
  rw [List.mem_map]
  constructor
  · rintro ⟨t, ht, rfl⟩
    have h := List.mem_filter.1 ht
    simp only [Bool.and_eq_true, beq_iff_eq] at h
    obtain ⟨hg, hs, hp⟩ := h
    have : t = ⟨s, p, t.obj⟩ := by
      obtain ⟨ts, tpr, tob⟩ := t
      simp only at hs hp
      rw [hs, hp]
    rw [← this]
    exact hg
  · intro hg
    exact ⟨⟨s, p, n⟩, List.mem_filter.2 ⟨hg, by simp⟩, rfl⟩

/-- Introduction rule for query rows: any severity/label/domain/timepoint
bindings of a subject passing the filters give a row. -/
theorem mem_queryRows_intro {g : Graph} {pid : String} {dF : Option Domain}
    {tF : Option Timepoint} {b : String} {sc lb dn tn : Node} {co : Option Node}
    (hsev : (⟨b, bcioHasSeverityScore, sc⟩ : Triple) ∈ g)
    (hlb : (⟨b, rdfsLabel, lb⟩ : Triple) ∈ g)
    (hdn : (⟨b, bcioConcernsDomain, dn⟩ : Triple) ∈ g)
    (htn : (⟨b, bcioAssessedAtTimepoint, tn⟩ : Triple) ∈ g)
    (hco : co ∈ optionalMatches (objectsOf g b bcioHasChangeFromBaseline))
    (hkeep : rowKeep g pid dF tF b = true) :
    (⟨b, sc, lb, dn, tn, co⟩ : QRow) ∈ queryRows g pid dF tF := by
  unfold queryRows
  refine List.mem_flatMap.2 ⟨⟨b, bcioHasSeverityScore, sc⟩,
    List.mem_filter.2 ⟨hsev, by simp⟩, ?_⟩
  refine List.mem_flatMap.2 ⟨lb, mem_objectsOf.2 hlb, ?_⟩
  refine List.mem_flatMap.2 ⟨dn, mem_objectsOf.2 hdn, ?_⟩
  refine List.mem_flatMap.2 ⟨tn, mem_objectsOf.2 htn, ?_⟩
  refine List.mem_filterMap.2 ⟨co, hco, ?_⟩
  rw [hkeep]
  simp

/-- Elimination: every query row comes from a subject that passes the filters,
and its change binding is an optional match of that subject's change edges. -/
theorem queryRows_elim {g : Graph} {pid : String} {dF : Option Domain}
    {tF : Option Timepoint} {row : QRow} (h : row ∈ queryRows g pid dF tF) :
    rowKeep g pid dF tF row.barrier = true ∧
    row.change ∈ optionalMatches (objectsOf g row.barrier bcioHasChangeFromBaseline) := by
  unfold queryRows at h
  obtain ⟨t1, ht1, h⟩ := List.mem_flatMap.1 h
  obtain ⟨lb, hlb, h⟩ := List.mem_flatMap.1 h
  obtain ⟨dn, hdn, h⟩ := List.mem_flatMap.1 h
  obtain ⟨tn, htn, h⟩ := List.mem_flatMap.1 h
  obtain ⟨co, hco, h⟩ := List.mem_filterMap.1 h
  by_cases hk : rowKeep g pid dF tF t1.subj = true
  · rw [hk] at h
    simp only [if_true] at h
    obtain rfl := Option.some.inj h
    exact ⟨hk, hco⟩
  · rw [Bool.not_eq_true] at hk
    rw [hk] at h
    simp at h

theorem optionalMatches_nonempty (l : List Node) : ∃ co, co ∈ optionalMatches l := by
  unfold optionalMatches
  rcases l with _ | ⟨a, l⟩
  · exact ⟨none, by simp⟩
  · exact ⟨some a, by simp⟩

/-- What `toRecord` preserves: the barrier URI, and a bound integer change
(whose lexical form is non-empty, hence truthy — including 0) converts to
itself. -/
theorem toRecord_spec {row : QRow} {rec : BarrierRecord} (h : toRecord row = some rec) :
    rec.barrier_uri = row.barrier ∧
    (∀ c : Int, row.change = some (.lit (.intVal c)) → rec.change_from_baseline = some c) := by
  obtain ⟨rb, rsc, rlb, rdn, rtn, rch⟩ := row
  rcases hsc : nodeToInt rsc with _ | s
  · unfold toRecord at h
    rw [hsc] at h
    cases h
  · cases rch with
    | none =>
        unfold toRecord at h
        rw [hsc] at h
        obtain rfl := Option.some.inj h.symm
        refine ⟨rfl, ?_⟩
        intro c hc
        cases hc
    | some cnode =>
        unfold toRecord at h
        rw [hsc] at h
        dsimp only at h
        refine ⟨?_, ?_⟩
        · by_cases ht : cnode.truthy = true
          · rw [ht] at h
            simp only [if_true] at h
            rcases hci : nodeToInt cnode with _ | cv <;> rw [hci] at h
            · cases h
            · obtain rfl := Option.some.inj h.symm
              rfl
          · rw [Bool.not_eq_true] at ht
            rw [ht] at h
            simp only [Bool.false_eq_true, if_false] at h
            obtain rfl := Option.some.inj h.symm
            rfl
        · intro c hc
          obtain rfl : cnode = .lit (.intVal c) := Option.some.inj hc
          rw [truthy_intVal c] at h
          simp only [if_true] at h
          rw [show nodeToInt (.lit (.intVal c)) = some c from rfl] at h
          obtain rfl := Option.some.inj h.symm
          rfl

/-! ## Claim theorems -/

theorem valBE_natLexChars (n : Nat) :
    (natLexChars n).foldl (fun a c => 10 * a + (c.toNat - ('0').toNat)) 0 = n := by
  unfold natLexChars
  split_ifs with h0
  · subst h0
    rfl
  · rw [← List.map_reverse]
    rw [foldl_digitCh _ (fun d hd => natDigitsRev_lt n n d (List.mem_reverse.1 hd)) 0]
    rw [List.foldl_reverse]
    rw [foldr_be_comm]
    exact valLE_natDigitsRev n n le_rfl

theorem foldl_replicate_zero (k : Nat) (l : List Char) :
    (List.replicate k '0' ++ l).foldl (fun a c => 10 * a + (c.toNat - ('0').toNat)) 0 =
      l.foldl (fun a c => 10 * a + (c.toNat - ('0').toNat)) 0 := by
  induction k with
  | zero => rfl
  | succ k ih => simpa using ih

/-- C7: the participant identifier is `"P"` followed by the sequence number
zero-padded to three digits; it is a pure function of the sequence number
(re-derivation reproduces it), and distinct sequence numbers never collide,
including beyond 999 where the number is no longer truncated. -/
theorem claim_C7 :
    (∀ n m : Nat, participantId n = participantId m ↔ n = m) ∧
    (∀ n : Nat, participantId n = "P" ++ pyZfill 3 (natLex n)) ∧
    participantId 1 = "P001" ∧ participantId 12 = "P012" ∧
    participantId 123 = "P123" ∧ participantId 1000 = "P1000" := by
  refine ⟨?_, fun n => rfl, by decide, by decide, by decide, by decide⟩
  intro n m
  constructor
  · intro h
    have hd := congrArg String.data h
    have hn : (participantId n).data =
        'P' :: (List.replicate (3 - (natLexChars n).length) '0' ++ natLexChars n) := rfl
    have hm : (participantId m).data =
        'P' :: (List.replicate (3 - (natLexChars m).length) '0' ++ natLexChars m) := rfl
    rw [hn, hm] at hd
    simp only [List.cons.injEq, true_and] at hd
    have hv := congrArg (List.foldl (fun a c => 10 * a + (c.toNat - ('0').toNat)) 0) hd
    rw [foldl_replicate_zero, foldl_replicate_zero, valBE_natLexChars,
      valBE_natLexChars] at hv
    exact hv
  · rintro rfl
    rfl

/-- C8: recording a barrier assessment with an empty score batch creates
exactly the six assessment-event triples (typing, label, participant link,
date, timepoint, domain), zero `has_part` links to barrier instances, and
nothing else. -/
theorem claim_C8 :
    ∀ (pid : String) (d : Domain) (tp : Timepoint) (date : String),
      addBarrierAssessment [] pid d tp [] date =
        [⟨assessmentUri pid d tp date, rdfType, .uri bcioProcessCls⟩,
         ⟨assessmentUri pid d tp date, rdfsLabel,
           .lit (.langStr ("Barrier Assessment - " ++ d.key) "en")⟩,
         ⟨assessmentUri pid d tp date, bcioHasSpecifiedInput, .uri (participantUri pid)⟩,
         ⟨assessmentUri pid d tp date, bcioHasTemporalValue, .lit (.dateTime date)⟩,
         ⟨assessmentUri pid d tp date, bcioAssessedAtTimepoint, .uri (timepointUri tp)⟩,
         ⟨assessmentUri pid d tp date, bcioConcernsDomain, .uri (domainUri d)⟩] ∧
      edgeCount (addBarrierAssessment [] pid d tp [] date)
        (assessmentUri pid d tp date) bfoHasPart = 0 := by
  intro pid d tp date
  have hnd : (assessmentHeaderTriples (assessmentUri pid d tp date) pid d tp date).Nodup := by
    simp only [assessmentHeaderTriples, List.nodup_cons, List.mem_cons, List.not_mem_nil,
      or_false, List.nodup_nil, and_true, not_or]
    repeat' apply And.intro
    all_goals
      first
        | (intro h; injection h with hs hp ho; exact absurd hp (by decide))
        | (intro h; exact h)
        | trivial
  have heq : addBarrierAssessment [] pid d tp [] date =
      assessmentHeaderTriples (assessmentUri pid d tp date) pid d tp date := by
    unfold addBarrierAssessment
    simp only [List.foldl_nil]
    rw [addAll_eq_append hnd (by simp)]
    simp
  constructor
  · rw [heq]
    rfl
  · rw [heq]
    apply edgeCount_eq_zero
    intro t ht hc
    simp only [assessmentHeaderTriples, List.mem_cons, List.not_mem_nil, or_false] at ht
    rcases ht with rfl | rfl | rfl | rfl | rfl | rfl <;>
      exact absurd hc.2 (by dsimp only; decide)

/-- C10: the barrier instance URI is a function of (participant, domain,
barrier type, timepoint) only — the assessment date is excluded — so a second
assessment of the same quadruple with a different severity score lands on the
same node: afterwards that single node carries both severity-score literals,
the older one is not overwritten, and every severity edge in the store sits on
that one URI. -/
theorem claim_C10 :
    ∀ (pid : String) (d : Domain) (bt : BarrierType) (tp : Timepoint)
      (s1 s2 : Int) (date1 date2 : String),
      (∀ c ∈ pid.data, c ≠ '/') → s1 ≠ s2 →
      ((⟨barrierUri pid d bt tp, bcioHasSeverityScore, .lit (.intVal s1)⟩ : Triple) ∈
        addBarrierAssessment (addBarrierAssessment [] pid d tp [(bt, s1)] date1)
          pid d tp [(bt, s2)] date2) ∧
      ((⟨barrierUri pid d bt tp, bcioHasSeverityScore, .lit (.intVal s2)⟩ : Triple) ∈
        addBarrierAssessment (addBarrierAssessment [] pid d tp [(bt, s1)] date1)
          pid d tp [(bt, s2)] date2) ∧
      (⟨barrierUri pid d bt tp, bcioHasSeverityScore, .lit (.intVal s1)⟩ : Triple) ≠
        ⟨barrierUri pid d bt tp, bcioHasSeverityScore, .lit (.intVal s2)⟩ ∧
      (∀ t ∈ addBarrierAssessment (addBarrierAssessment [] pid d tp [(bt, s1)] date1)
          pid d tp [(bt, s2)] date2,
        t.pred = bcioHasSeverityScore → t.subj = barrierUri pid d bt tp) := by
  intro pid d bt tp s1 s2 date1 date2 hpid hs12
  have hseg := lastSegBy_participantUri hpid
  have memg1 := fun x =>
    @mem_addBarrierAssessment_single [] pid d tp bt s1 date1 hseg x
  have memg2 := fun x =>
    @mem_addBarrierAssessment_single (addBarrierAssessment [] pid d tp [(bt, s1)] date1)
      pid d tp bt s2 date2 hseg x
  refine ⟨?_, ?_, ?_, ?_⟩
  · rw [memg2]
    refine Or.inl ?_
    rw [memg1]
    refine Or.inr (Or.inr (Or.inl ?_))
    simp [barrierInstanceTriples]
  · rw [memg2]
    refine Or.inr (Or.inr (Or.inl ?_))
    simp [barrierInstanceTriples]
  · intro h
    injection h with hs hp ho
    injection ho with hv
    injection hv with hi
    exact hs12 hi
  · intro t ht hp
    rw [memg2] at ht
    rcases ht with h1 | hh | hi | hpart
    · rw [memg1] at h1
      rcases h1 with h0 | hh | hi | hpart
      · cases h0
      · simp only [assessmentHeaderTriples, List.mem_cons, List.not_mem_nil, or_false] at hh
        rcases hh with rfl | rfl | rfl | rfl | rfl | rfl <;>
          exact absurd hp (by dsimp only; decide)
      · simp only [barrierInstanceTriples, List.mem_cons, List.not_mem_nil, or_false] at hi
        rcases hi with rfl | rfl | rfl | rfl | rfl | rfl | rfl | rfl | rfl <;>
          first
            | exact absurd hp (by dsimp only; decide)
            | rfl
      · subst hpart
        exact absurd hp (by dsimp only; decide)
    · simp only [assessmentHeaderTriples, List.mem_cons, List.not_mem_nil, or_false] at hh
      rcases hh with rfl | rfl | rfl | rfl | rfl | rfl <;>
        exact absurd hp (by dsimp only; decide)
    · simp only [barrierInstanceTriples, List.mem_cons, List.not_mem_nil, or_false] at hi
      rcases hi with rfl | rfl | rfl | rfl | rfl | rfl | rfl | rfl | rfl <;>
        first
          | exact absurd hp (by dsimp only; decide)
          | rfl
    · subst hpart
      exact absurd hp (by dsimp only; decide)

/-- C10 witness: a second baseline for (P001, employment,
physical capability) with a different score stacks both severity literals on
the single barrier node. -/
theorem claim_C10_witness :
    ((⟨barrierUri "P001" .employment .physical_capability .baseline,
        bcioHasSeverityScore, .lit (.intVal 6)⟩ : Triple) ∈
      addBarrierAssessment (addBarrierAssessment [] "P001" .employment .baseline
        [(.physical_capability, 6)] "2024-01-01T00:00:00")
        "P001" .employment .baseline [(.physical_capability, 3)] "2024-01-05T00:00:00") ∧
    ((⟨barrierUri "P001" .employment .physical_capability .baseline,
        bcioHasSeverityScore, .lit (.intVal 3)⟩ : Triple) ∈
      addBarrierAssessment (addBarrierAssessment [] "P001" .employment .baseline
        [(.physical_capability, 6)] "2024-01-01T00:00:00")
        "P001" .employment .baseline [(.physical_capability, 3)] "2024-01-05T00:00:00") ∧
    (⟨barrierUri "P001" .employment .physical_capability .baseline,
        bcioHasSeverityScore, .lit (.intVal 6)⟩ : Triple) ≠
      ⟨barrierUri "P001" .employment .physical_capability .baseline,
        bcioHasSeverityScore, .lit (.intVal 3)⟩ ∧
    (∀ t ∈ addBarrierAssessment (addBarrierAssessment [] "P001" .employment .baseline
        [(.physical_capability, 6)] "2024-01-01T00:00:00")
        "P001" .employment .baseline [(.physical_capability, 3)] "2024-01-05T00:00:00",
      t.pred = bcioHasSeverityScore →
      t.subj = barrierUri "P001" .employment .physical_capability .baseline) :=
  claim_C10 "P001" .employment .physical_capability .baseline 6 3
    "2024-01-01T00:00:00" "2024-01-05T00:00:00" (by decide) (by decide)

/-- C4: loading the serialized form of any store yields exactly the stored
triples (hence the same triple set, independent of order), for every
supported literal type. -/
theorem claim_C4 : ∀ (g : Graph), loadStore (serializeStore g) = some g :=
  loadStore_serializeStore

/-- C3: when referral data indicates a referral was made, `auto_tag_encounter`
synthesizes exactly one referral-technique instance (auto-tagged, fidelity
forced to `delivered`, notes from the referral category) unless an instance
whose `bct_id` already contains `BCT_12.5` is present, in which case nothing
is added. -/
theorem claim_C3 :
    ∀ (eid protoId : String) (confirmed : List (String × ConfirmedBct)) (r : ReferralData),
      r.was_referral_made = true →
      (((confirmedInstances eid (protocolBcts protoId) confirmed).2.any
          (fun bi => strContains bi.bct_id ("BCT_12.5")) = true →
        auto_tag_encounter eid protoId confirmed (some r) =
          (confirmedInstances eid (protocolBcts protoId) confirmed).2) ∧
       ((confirmedInstances eid (protocolBcts protoId) confirmed).2.any
          (fun bi => strContains bi.bct_id ("BCT_12.5")) = false →
        auto_tag_encounter eid protoId confirmed (some r) =
          (confirmedInstances eid (protocolBcts protoId) confirmed).2 ++
            [referralInstance eid
              ((confirmedInstances eid (protocolBcts protoId) confirmed).1 + 1) r] ∧
        ((auto_tag_encounter eid protoId confirmed (some r)).filter
          (fun bi => strContains bi.bct_id ("BCT_12.5"))).length = 1 ∧
        (auto_tag_encounter eid protoId confirmed (some r)).length =
          (confirmedInstances eid (protocolBcts protoId) confirmed).2.length + 1 ∧
        (referralInstance eid
            ((confirmedInstances eid (protocolBcts protoId) confirmed).1 + 1) r).auto_tagged
          = true ∧
        (referralInstance eid
            ((confirmedInstances eid (protocolBcts protoId) confirmed).1 + 1) r).fidelity_value
          = "delivered" ∧
        (referralInstance eid
            ((confirmedInstances eid (protocolBcts protoId) confirmed).1 + 1) r).bct_id
          = "BCT_12.5" ∧
        (referralInstance eid
            ((confirmedInstances eid (protocolBcts protoId) confirmed).1 + 1) r).notes
          = "Referral to " ++ r.category.getD "unspecified")) := by
  intro eid protoId confirmed r hw
  constructor
  · intro ha
    simp [auto_tag_encounter, hw, ha]
  · intro ha
    have he : auto_tag_encounter eid protoId confirmed (some r) =
        (confirmedInstances eid (protocolBcts protoId) confirmed).2 ++
          [referralInstance eid
            ((confirmedInstances eid (protocolBcts protoId) confirmed).1 + 1) r] := by
      simp [auto_tag_encounter, hw, ha, referralInstance]
    refine ⟨he, ?_, ?_, rfl, rfl, rfl, rfl⟩
    · rw [he, List.filter_append]
      have hbase : ((confirmedInstances eid (protocolBcts protoId) confirmed).2.filter
          (fun bi => strContains bi.bct_id ("BCT_12.5"))) = [] := by
        rw [List.filter_eq_nil_iff]
        intro bi hbi
        have := List.any_eq_false.1 (by rw [ha]) bi hbi
        simpa using this
      rw [hbase]
      have hp : strContains (referralInstance eid
          ((confirmedInstances eid (protocolBcts protoId) confirmed).1 + 1) r).bct_id
          ("BCT_12.5") = true := by
        dsimp only [referralInstance]
        decide
      simp [List.filter_cons, hp]
    · rw [he]
      simp

/-- C3 witness: Scenario B — the housing protocol with no confirmed BCTs and a
housing referral yields exactly the one synthetic auto-tagged instance. -/
theorem claim_C3_witness :
    auto_tag_encounter "ENC_20240101_000000" "housing_action_planning" []
        (some ⟨true, some "housing", some "Emergency shelter", true⟩) =
      (confirmedInstances "ENC_20240101_000000" (protocolBcts "housing_action_planning") []).2
        ++ [referralInstance "ENC_20240101_000000"
          ((confirmedInstances "ENC_20240101_000000"
            (protocolBcts "housing_action_planning") []).1 + 1)
          ⟨true, some "housing", some "Emergency shelter", true⟩] ∧
    ((auto_tag_encounter "ENC_20240101_000000" "housing_action_planning" []
        (some ⟨true, some "housing", some "Emergency shelter", true⟩)).filter
      (fun bi => strContains bi.bct_id ("BCT_12.5"))).length = 1 ∧
    (auto_tag_encounter "ENC_20240101_000000" "housing_action_planning" []
        (some ⟨true, some "housing", some "Emergency shelter", true⟩)).length =
      (confirmedInstances "ENC_20240101_000000"
        (protocolBcts "housing_action_planning") []).2.length + 1 ∧
    (referralInstance "ENC_20240101_000000"
        ((confirmedInstances "ENC_20240101_000000"
          (protocolBcts "housing_action_planning") []).1 + 1)
        ⟨true, some "housing", some "Emergency shelter", true⟩).auto_tagged = true ∧
    (referralInstance "ENC_20240101_000000"
        ((confirmedInstances "ENC_20240101_000000"
          (protocolBcts "housing_action_planning") []).1 + 1)
        ⟨true, some "housing", some "Emergency shelter", true⟩).fidelity_value
      = "delivered" ∧
    (referralInstance "ENC_20240101_000000"
        ((confirmedInstances "ENC_20240101_000000"
          (protocolBcts "housing_action_planning") []).1 + 1)
        ⟨true, some "housing", some "Emergency shelter", true⟩).bct_id = "BCT_12.5" ∧
    (referralInstance "ENC_20240101_000000"
        ((confirmedInstances "ENC_20240101_000000"
          (protocolBcts "housing_action_planning") []).1 + 1)
        ⟨true, some "housing", some "Emergency shelter", true⟩).notes
      = "Referral to " ++ (some "housing").getD "unspecified" :=
  (claim_C3 "ENC_20240101_000000" "housing_action_planning" []
    ⟨true, some "housing", some "Emergency shelter", true⟩ rfl).2 (by decide)

/-- The cohort-analytics scenario store: P001 assessed at baseline and day 30
in two domains, producing change scores -3 and 0 (employment) and +2
(accommodation). -/
def cohortScenarioStore : Graph :=
  addFollowUpAssessment
    (addFollowUpAssessment
      (addBarrierAssessment
        (addBarrierAssessment [] "P001" .employment .baseline
          [(.physical_capability, 5), (.psychological_capability, 4)] "2024-01-01T00:00:00")
        "P001" .accommodation .baseline [(.physical_capability, 3)] "2024-01-01T00:00:00")
      "P001" .employment .day_30
      [(.physical_capability, 2), (.psychological_capability, 4)] "2024-02-01T00:00:00")
    "P001" .accommodation .day_30 [(.physical_capability, 5)] "2024-02-01T00:00:00"

set_option maxRecDepth 100000 in
set_option maxHeartbeats 1000000 in
/-- C5: cohort analytics aggregates every change edge in the store regardless
of domain — improved/stable/worsened counts are the counts of negative, zero
and positive change values, the average is their exact arithmetic mean, and
the concrete scenario with changes -3, 0, 2 across two domains yields counts
1/1/1 and average -1/3. -/
theorem claim_C5 :
    (∀ (g : Graph) (dist : ChangeDistribution), getChangeScoreDistribution g = some dist →
      ∃ vals, pyMapM nodeToInt (changeNodes g) = some vals ∧
        dist.changes.Perm vals ∧
        dist.improved_count = (vals.filter (fun c => decide (c < 0))).length ∧
        dist.stable_count = (vals.filter (fun c => decide (c = 0))).length ∧
        dist.worsened_count = (vals.filter (fun c => decide (0 < c))).length) ∧
    (∀ (g : Graph) (vals : List Int), pyMapM nodeToInt (changeNodes g) = some vals →
      vals ≠ [] →
      calculateAvgBarrierReduction g = some ((vals.sum : Rat) / (vals.length : Rat))) ∧
    (getChangeScoreDistribution cohortScenarioStore).map
      (fun dist => (dist.changes, dist.improved_count, dist.stable_count,
        dist.worsened_count)) = some ([-3, 0, 2], 1, 1, 1) ∧
    calculateAvgBarrierReduction cohortScenarioStore = some (-1/3) := by
  refine ⟨?_, ?_, by decide, ?_⟩
  · intro g dist h
    unfold getChangeScoreDistribution at h
    rcases hm : pyMapM nodeToInt (changeNodes g) with _ | vals <;> rw [hm] at h
    · cases h
    · dsimp only at h
      obtain rfl := Option.some.inj h.symm
      refine ⟨vals, rfl, stableSort_perm _ vals, ?_, ?_, ?_⟩ <;>
        · dsimp only
          rw [← List.countP_eq_length_filter, ← List.countP_eq_length_filter]
          exact (stableSort_perm _ vals).countP_eq _
  · intro g vals hm hne
    unfold calculateAvgBarrierReduction
    rw [hm]
    dsimp only
    rw [if_neg (by simpa using hne)]
  · have hv : pyMapM nodeToInt (changeNodes cohortScenarioStore) = some [-3, 0, 2] := by
      decide
    unfold calculateAvgBarrierReduction
    rw [hv]
    dsimp only
    norm_num

set_option maxRecDepth 100000 in
/-- C1 counterexample: with an empty store (so no baseline exists at all),
`add_follow_up_assessment` still attaches one `is_reassessment_of` edge to the
follow-up barrier — the claim's "zero is_reassessment_of edges" is false. -/
theorem claim_C1_counterexample :
    edgeCount (addFollowUpAssessment [] "P001" .employment .day_30
        [(.physical_capability, 5)] "2024-02-01T00:00:00")
      (barrierUri "P001" .employment .physical_capability .day_30)
      bcioIsReassessmentOf ≠ 0 ∧
    edgeCount (addFollowUpAssessment [] "P001" .employment .day_30
        [(.physical_capability, 5)] "2024-02-01T00:00:00")
      (barrierUri "P001" .employment .physical_capability .day_30)
      bcioIsReassessmentOf = 1 ∧
    edgeCount (addFollowUpAssessment [] "P001" .employment .day_30
        [(.physical_capability, 5)] "2024-02-01T00:00:00")
      (barrierUri "P001" .employment .physical_capability .day_30)
      bcioHasChangeFromBaseline = 0 := by
  decide

/-- C1 (amended): a follow-up recorded for (participant, domain, barrier_type)
with an existing baseline produces exactly one `is_reassessment_of` edge to the
baseline and exactly one change edge; without a baseline, the follow-up is
still recorded with its severity score and zero change edges, but it still
receives exactly one `is_reassessment_of` edge (pointing at the absent
baseline's URI) — not zero, because the code adds that edge unconditionally. -/
theorem claim_C1_amended :
    (∀ (g0 : Graph) (pid : String) (d : Domain) (bt : BarrierType) (tp : Timepoint)
       (fscore b : Int) (date : String),
       g0.Nodup → (∀ c ∈ pid.data, c ≠ '/') → tp ≠ Timepoint.baseline →
       (⟨barrierUri pid d bt .baseline, bcioHasSeverityScore,
         .lit (.intVal b)⟩ : Triple) ∈ g0 →
       (∀ t ∈ g0, t.subj = barrierUri pid d bt .baseline →
         t.pred = bcioHasSeverityScore →
         t = ⟨barrierUri pid d bt .baseline, bcioHasSeverityScore, .lit (.intVal b)⟩) →
       (∀ t ∈ g0, t.subj ≠ barrierUri pid d bt tp) →
       ((⟨barrierUri pid d bt tp, bcioIsReassessmentOf,
           .uri (barrierUri pid d bt .baseline)⟩ : Triple)
         ∈ addFollowUpAssessment g0 pid d tp [(bt, fscore)] date) ∧
       edgeCount (addFollowUpAssessment g0 pid d tp [(bt, fscore)] date)
         (barrierUri pid d bt tp) bcioIsReassessmentOf = 1 ∧
       ((⟨barrierUri pid d bt tp, bcioHasChangeFromBaseline,
           .lit (.intVal (fscore - b))⟩ : Triple)
         ∈ addFollowUpAssessment g0 pid d tp [(bt, fscore)] date) ∧
       edgeCount (addFollowUpAssessment g0 pid d tp [(bt, fscore)] date)
         (barrierUri pid d bt tp) bcioHasChangeFromBaseline = 1) ∧
    (∀ (g0 : Graph) (pid : String) (d : Domain) (bt : BarrierType) (tp : Timepoint)
       (fscore : Int) (date : String),
       g0.Nodup → (∀ c ∈ pid.data, c ≠ '/') → tp ≠ Timepoint.baseline →
       (∀ t ∈ g0, ¬(t.subj = barrierUri pid d bt .baseline ∧
         t.pred = bcioHasSeverityScore)) →
       (∀ t ∈ g0, t.subj ≠ barrierUri pid d bt tp) →
       ((⟨barrierUri pid d bt tp, bcioHasSeverityScore,
           .lit (.intVal fscore)⟩ : Triple)
         ∈ addFollowUpAssessment g0 pid d tp [(bt, fscore)] date) ∧
       ((⟨barrierUri pid d bt tp, bcioIsReassessmentOf,
           .uri (barrierUri pid d bt .baseline)⟩ : Triple)
         ∈ addFollowUpAssessment g0 pid d tp [(bt, fscore)] date) ∧
       edgeCount (addFollowUpAssessment g0 pid d tp [(bt, fscore)] date)
         (barrierUri pid d bt tp) bcioIsReassessmentOf = 1 ∧
       edgeCount (addFollowUpAssessment g0 pid d tp [(bt, fscore)] date)
         (barrierUri pid d bt tp) bcioHasChangeFromBaseline = 0) :=
  ⟨fun g0 pid d bt tp fscore b date h1 h2 h3 h4 h5 h6 =>
      followUp_edges g0 pid d bt tp fscore b date h1 h2 h3 h4 h5 h6,
   fun g0 pid d bt tp fscore date h1 h2 h3 h4 h5 =>
      followUp_no_baseline g0 pid d bt tp fscore date h1 h2 h3 h4 h5⟩

set_option maxRecDepth 100000 in
/-- C1 witness: both branches at concrete stores — a baseline severity 6
followed by a day-30 score of 4 (one reassessment edge, one change edge -2),
and a follow-up into an empty store (one reassessment edge, zero change
edges). -/
theorem claim_C1_witness :
    (((⟨barrierUri "P001" .employment .physical_capability .day_30,
        bcioIsReassessmentOf,
        .uri (barrierUri "P001" .employment .physical_capability .baseline)⟩ : Triple)
      ∈ addFollowUpAssessment
        (addBarrierAssessment [] "P001" .employment .baseline
          [(.physical_capability, 6)] "2024-01-01T00:00:00")
        "P001" .employment .day_30 [(.physical_capability, 4)] "2024-02-01T00:00:00") ∧
     edgeCount (addFollowUpAssessment
        (addBarrierAssessment [] "P001" .employment .baseline
          [(.physical_capability, 6)] "2024-01-01T00:00:00")
        "P001" .employment .day_30 [(.physical_capability, 4)] "2024-02-01T00:00:00")
       (barrierUri "P001" .employment .physical_capability .day_30)
       bcioIsReassessmentOf = 1 ∧
     ((⟨barrierUri "P001" .employment .physical_capability .day_30,
        bcioHasChangeFromBaseline, .lit (.intVal ((4 : Int) - 6))⟩ : Triple)
      ∈ addFollowUpAssessment
        (addBarrierAssessment [] "P001" .employment .baseline
          [(.physical_capability, 6)] "2024-01-01T00:00:00")
        "P001" .employment .day_30 [(.physical_capability, 4)] "2024-02-01T00:00:00") ∧
     edgeCount (addFollowUpAssessment
        (addBarrierAssessment [] "P001" .employment .baseline
          [(.physical_capability, 6)] "2024-01-01T00:00:00")
        "P001" .employment .day_30 [(.physical_capability, 4)] "2024-02-01T00:00:00")
       (barrierUri "P001" .employment .physical_capability .day_30)
       bcioHasChangeFromBaseline = 1) ∧
    (((⟨barrierUri "P001" .employment .physical_capability .day_30,
        bcioHasSeverityScore, .lit (.intVal 5)⟩ : Triple)
      ∈ addFollowUpAssessment [] "P001" .employment .day_30
        [(.physical_capability, 5)] "2024-02-01T00:00:00") ∧
     ((⟨barrierUri "P001" .employment .physical_capability .day_30,
        bcioIsReassessmentOf,
        .uri (barrierUri "P001" .employment .physical_capability .baseline)⟩ : Triple)
      ∈ addFollowUpAssessment [] "P001" .employment .day_30
        [(.physical_capability, 5)] "2024-02-01T00:00:00") ∧
     edgeCount (addFollowUpAssessment [] "P001" .employment .day_30
        [(.physical_capability, 5)] "2024-02-01T00:00:00")
       (barrierUri "P001" .employment .physical_capability .day_30)
       bcioIsReassessmentOf = 1 ∧
     edgeCount (addFollowUpAssessment [] "P001" .employment .day_30
        [(.physical_capability, 5)] "2024-02-01T00:00:00")
       (barrierUri "P001" .employment .physical_capability .day_30)
       bcioHasChangeFromBaseline = 0) :=
  ⟨claim_C1_amended.1
      (addBarrierAssessment [] "P001" .employment .baseline
        [(.physical_capability, 6)] "2024-01-01T00:00:00")
      "P001" .employment .physical_capability .day_30 4 6 "2024-02-01T00:00:00"
      (by decide) (by decide) (by decide) (by decide) (by decide) (by decide),
   claim_C1_amended.2 [] "P001" .employment .physical_capability .day_30 5
      "2024-02-01T00:00:00"
      (by decide) (by decide) (by decide) (by decide) (by decide)⟩

/-- Scenario A store: baseline scores {physical_capability: 6,
psychological_capability: 7} for P001/employment, then a day-30 follow-up with
{physical_capability: 4, psychological_capability: 7}. -/
def scenarioAStore : Graph :=
  addFollowUpAssessment
    (addBarrierAssessment [] "P001" .employment .baseline
      [(.physical_capability, 6), (.psychological_capability, 7)] "2024-01-01T00:00:00")
    "P001" .employment .day_30
    [(.physical_capability, 4), (.psychological_capability, 7)] "2024-02-01T00:00:00"

set_option maxRecDepth 100000 in
/-- C2: the stored change score is `f - b`, the follow-up barrier is classified
Reduction iff change < 0, Stable iff change = 0 and Increase iff change > 0
(for all integer scores, hence in particular for b, f in [0,10]); and Scenario
A (baseline 6 and 7, day-30 follow-up 4 and 7) yields change edges -2 with a
Reduction type and 0 with a Stable type. -/
theorem claim_C2 :
    (∀ (g0 : Graph) (pid : String) (d : Domain) (bt : BarrierType) (tp : Timepoint)
       (fscore b : Int) (date : String),
       g0.Nodup → (∀ c ∈ pid.data, c ≠ '/') → tp ≠ Timepoint.baseline →
       (⟨barrierUri pid d bt .baseline, bcioHasSeverityScore,
         .lit (.intVal b)⟩ : Triple) ∈ g0 →
       (∀ t ∈ g0, t.subj = barrierUri pid d bt .baseline →
         t.pred = bcioHasSeverityScore →
         t = ⟨barrierUri pid d bt .baseline, bcioHasSeverityScore, .lit (.intVal b)⟩) →
       (∀ t ∈ g0, t.subj ≠ barrierUri pid d bt tp) →
       ((⟨barrierUri pid d bt tp, bcioHasChangeFromBaseline,
           .lit (.intVal (fscore - b))⟩ : Triple)
         ∈ addFollowUpAssessment g0 pid d tp [(bt, fscore)] date) ∧
       edgeCount (addFollowUpAssessment g0 pid d tp [(bt, fscore)] date)
         (barrierUri pid d bt tp) bcioHasChangeFromBaseline = 1 ∧
       (((⟨barrierUri pid d bt tp, rdfType, .uri barrierReductionCls⟩ : Triple)
          ∈ addFollowUpAssessment g0 pid d tp [(bt, fscore)] date) ↔ fscore - b < 0) ∧
       (((⟨barrierUri pid d bt tp, rdfType, .uri barrierStableCls⟩ : Triple)
          ∈ addFollowUpAssessment g0 pid d tp [(bt, fscore)] date) ↔ fscore - b = 0) ∧
       (((⟨barrierUri pid d bt tp, rdfType, .uri barrierIncreaseCls⟩ : Triple)
          ∈ addFollowUpAssessment g0 pid d tp [(bt, fscore)] date) ↔ 0 < fscore - b)) ∧
    ((⟨barrierUri "P001" .employment .physical_capability .day_30,
        bcioHasChangeFromBaseline, .lit (.intVal (-2))⟩ : Triple) ∈ scenarioAStore ∧
     (⟨barrierUri "P001" .employment .physical_capability .day_30,
        rdfType, .uri barrierReductionCls⟩ : Triple) ∈ scenarioAStore ∧
     (⟨barrierUri "P001" .employment .psychological_capability .day_30,
        bcioHasChangeFromBaseline, .lit (.intVal 0)⟩ : Triple) ∈ scenarioAStore ∧
     (⟨barrierUri "P001" .employment .psychological_capability .day_30,
        rdfType, .uri barrierStableCls⟩ : Triple) ∈ scenarioAStore ∧
     edgeCount scenarioAStore
       (barrierUri "P001" .employment .physical_capability .day_30)
       bcioHasChangeFromBaseline = 1 ∧
     edgeCount scenarioAStore
       (barrierUri "P001" .employment .psychological_capability .day_30)
       bcioHasChangeFromBaseline = 1) := by
  refine ⟨?_, by decide⟩
  intro g0 pid d bt tp fscore b date h1 h2 h3 h4 h5 h6
  obtain ⟨_, _, hc, hcnt⟩ := followUp_edges g0 pid d bt tp fscore b date h1 h2 h3 h4 h5 h6
  exact ⟨hc, hcnt,
    followUp_class_reduction g0 pid d bt tp fscore b date h2 h3 h4 h5 h6,
    followUp_class_stable g0 pid d bt tp fscore b date h2 h3 h4 h5 h6,
    followUp_class_increase g0 pid d bt tp fscore b date h2 h3 h4 h5 h6⟩

set_option maxRecDepth 100000 in
/-- C2 witness: baseline 3, follow-up 9 for P002 — the change edge carries 6
and the classification iffs instantiate to a concrete Increase. -/
theorem claim_C2_witness :
    ((⟨barrierUri "P002" .employment .physical_capability .day_30,
        bcioHasChangeFromBaseline, .lit (.intVal ((9 : Int) - 3))⟩ : Triple)
      ∈ addFollowUpAssessment
        (addBarrierAssessment [] "P002" .employment .baseline
          [(.physical_capability, 3)] "2024-01-01T00:00:00")
        "P002" .employment .day_30 [(.physical_capability, 9)] "2024-02-01T00:00:00") ∧
    edgeCount (addFollowUpAssessment
        (addBarrierAssessment [] "P002" .employment .baseline
          [(.physical_capability, 3)] "2024-01-01T00:00:00")
        "P002" .employment .day_30 [(.physical_capability, 9)] "2024-02-01T00:00:00")
      (barrierUri "P002" .employment .physical_capability .day_30)
      bcioHasChangeFromBaseline = 1 ∧
    (((⟨barrierUri "P002" .employment .physical_capability .day_30,
        rdfType, .uri barrierReductionCls⟩ : Triple)
      ∈ addFollowUpAssessment
        (addBarrierAssessment [] "P002" .employment .baseline
          [(.physical_capability, 3)] "2024-01-01T00:00:00")
        "P002" .employment .day_30 [(.physical_capability, 9)] "2024-02-01T00:00:00")
      ↔ (9 : Int) - 3 < 0) ∧
    (((⟨barrierUri "P002" .employment .physical_capability .day_30,
        rdfType, .uri barrierStableCls⟩ : Triple)
      ∈ addFollowUpAssessment
        (addBarrierAssessment [] "P002" .employment .baseline
          [(.physical_capability, 3)] "2024-01-01T00:00:00")
        "P002" .employment .day_30 [(.physical_capability, 9)] "2024-02-01T00:00:00")
      ↔ (9 : Int) - 3 = 0) ∧
    (((⟨barrierUri "P002" .employment .physical_capability .day_30,
        rdfType, .uri barrierIncreaseCls⟩ : Triple)
      ∈ addFollowUpAssessment
        (addBarrierAssessment [] "P002" .employment .baseline
          [(.physical_capability, 3)] "2024-01-01T00:00:00")
        "P002" .employment .day_30 [(.physical_capability, 9)] "2024-02-01T00:00:00")
      ↔ (0 : Int) < 9 - 3) :=
  claim_C2.1
    (addBarrierAssessment [] "P002" .employment .baseline
      [(.physical_capability, 3)] "2024-01-01T00:00:00")
    "P002" .employment .physical_capability .day_30 9 3 "2024-02-01T00:00:00"
    (by decide) (by decide) (by decide) (by decide) (by decide) (by decide)

/-- A store in which a follow-up equals its baseline, so the change edge
carries the integer 0: P001/employment/physical_capability scored 6 at
baseline and 6 at day 30. -/
def changeZeroStore : Graph :=
  addFollowUpAssessment
    (addBarrierAssessment [] "P001" .employment .baseline
      [(.physical_capability, 6)] "2024-01-01T00:00:00")
    "P001" .employment .day_30 [(.physical_capability, 6)] "2024-02-01T00:00:00"

/-- C6: a barrier carrying a `has_change_from_baseline` edge with integer
value c (including c = 0, whose rdflib literal is truthy because its lexical
form "0" is non-empty) is reported by `get_participant_barriers` with change
field `some c`, never `none`; and a record whose change field is `none` comes
from a barrier with no integer change edge at all. -/
theorem claim_C6 :
    (∀ (g : Graph) (pid : String) (rs : List BarrierRecord) (b : String)
       (lb dn tn sc : Node) (c : Int),
       getParticipantBarriers g pid none none = some rs →
       (⟨b, bcioHasSeverityScore, sc⟩ : Triple) ∈ g →
       (⟨b, rdfsLabel, lb⟩ : Triple) ∈ g →
       (⟨b, bcioConcernsDomain, dn⟩ : Triple) ∈ g →
       (⟨b, bcioAssessedAtTimepoint, tn⟩ : Triple) ∈ g →
       (⟨b, bcioHasChangeFromBaseline, .lit (.intVal c)⟩ : Triple) ∈ g →
       strContains b pid = true →
       ∃ r ∈ rs, r.barrier_uri = b ∧ r.change_from_baseline = some c) ∧
    (∀ (g : Graph) (pid : String) (rs : List BarrierRecord) (r : BarrierRecord) (c : Int),
       (∀ t ∈ g, t.pred = bcioHasChangeFromBaseline →
         ∃ c2 : Int, t.obj = .lit (.intVal c2)) →
       getParticipantBarriers g pid none none = some rs →
       r ∈ rs →
       r.change_from_baseline = none →
       (⟨r.barrier_uri, bcioHasChangeFromBaseline, .lit (.intVal c)⟩ : Triple) ∉ g) := by
  constructor
  · intro g pid rs b lb dn tn sc c hout hsev hlb hdn htn hchg hcont
    have hchgObj : (.lit (.intVal c) : Node) ∈
        objectsOf g b bcioHasChangeFromBaseline := mem_objectsOf.2 hchg
    have hne : objectsOf g b bcioHasChangeFromBaseline ≠ [] :=
      List.ne_nil_of_mem hchgObj
    have hco : (some (.lit (.intVal c)) : Option Node) ∈
        optionalMatches (objectsOf g b bcioHasChangeFromBaseline) := by
      unfold optionalMatches
      rw [if_neg hne]
      exact List.mem_map_of_mem _ hchgObj
    have hkeep : rowKeep g pid none none b = true := by
      simp [rowKeep, hcont]
    have hrowS : (⟨b, sc, lb, dn, tn, some (.lit (.intVal c))⟩ : QRow) ∈
        stableSort rowLe (queryRows g pid none none) :=
      mem_stableSort.2 (mem_queryRows_intro hsev hlb hdn htn hco hkeep)
    unfold getParticipantBarriers at hout
    obtain ⟨rec, hrec, hconv⟩ := pyMapM_forward toRecord hout _ hrowS
    obtain ⟨hb2, hc2⟩ := toRecord_spec hconv
    exact ⟨rec, hrec, hb2, hc2 c rfl⟩
  · intro g pid rs r c hint hout hr hnone hmem
    unfold getParticipantBarriers at hout
    obtain ⟨row, hrowS, hconv⟩ := pyMapM_backward toRecord hout r hr
    obtain ⟨hkeep, hco⟩ := queryRows_elim (mem_stableSort.1 hrowS)
    obtain ⟨hb2, hcs⟩ := toRecord_spec hconv
    rw [hb2] at hmem
    have hchgObj : (.lit (.intVal c) : Node) ∈
        objectsOf g row.barrier bcioHasChangeFromBaseline := mem_objectsOf.2 hmem
    have hne : objectsOf g row.barrier bcioHasChangeFromBaseline ≠ [] :=
      List.ne_nil_of_mem hchgObj
    unfold optionalMatches at hco
    rw [if_neg hne] at hco
    obtain ⟨n, hnl, heqn⟩ := List.mem_map.1 hco
    have hng : (⟨row.barrier, bcioHasChangeFromBaseline, n⟩ : Triple) ∈ g :=
      mem_objectsOf.1 hnl
    obtain ⟨c2, hc2⟩ := hint _ hng rfl
    dsimp only at hc2
    have hrc : r.change_from_baseline = some c2 := by
      apply hcs
      rw [← heqn, hc2]
    rw [hnone] at hrc
    cases hrc

set_option maxRecDepth 100000 in
/-- C6 witness: in `changeZeroStore` the day-30 barrier carries change edge 0
and its returned record reports change 0 (not an absent change). -/
theorem claim_C6_witness :
    ∃ r ∈ [(⟨"http://interventions.org/barrier/P001/employment/physical_capability/baseline",
            "Physical Capability Barrier", "Employment_Domain", "Baseline", 6,
            none⟩ : BarrierRecord),
           (⟨"http://interventions.org/barrier/P001/employment/physical_capability/day_30",
            "Physical Capability Barrier", "Employment_Domain", "Day_30", 6,
            some 0⟩ : BarrierRecord)],
      r.barrier_uri = barrierUri "P001" .employment .physical_capability .day_30 ∧
      r.change_from_baseline = some 0 :=
  claim_C6.1 changeZeroStore "P001"
    [⟨"http://interventions.org/barrier/P001/employment/physical_capability/baseline",
      "Physical Capability Barrier", "Employment_Domain", "Baseline", 6, none⟩,
     ⟨"http://interventions.org/barrier/P001/employment/physical_capability/day_30",
      "Physical Capability Barrier", "Employment_Domain", "Day_30", 6, some 0⟩]
    (barrierUri "P001" .employment .physical_capability .day_30)
    (.lit (.langStr "Physical Capability Barrier" "en"))
    (.uri (domainUri .employment))
    (.uri (timepointUri .day_30))
    (.lit (.intVal 6)) 0
    (by decide) (by decide) (by decide) (by decide) (by decide) (by decide) (by decide)

/-- Two participants whose identifiers overlap as substrings: P001 and P0011,
each with one baseline assessment in the employment domain. -/
def crossParticipantStore : Graph :=
  addBarrierAssessment
    (addBarrierAssessment [] "P001" .employment .baseline
      [(.physical_capability, 4)] "2024-01-01T00:00:00")
    "P0011" .employment .baseline [(.physical_capability, 7)] "2024-01-01T00:00:00"

set_option maxRecDepth 100000 in
/-- C9: `get_participant_barriers` selects by substring containment of the
participant id in the barrier URI — every returned record's URI contains the
id (soundness), every barrier whose bindings pass the filters (which include
the CONTAINS clause) is returned (completeness), and in a store holding P001
and P0011 a query for P001 also returns P0011's barrier. -/
theorem claim_C9 :
    (∀ (g : Graph) (pid : String) (dF : Option Domain) (tF : Option Timepoint)
       (rs : List BarrierRecord) (r : BarrierRecord),
       getParticipantBarriers g pid dF tF = some rs → r ∈ rs →
       strContains r.barrier_uri pid = true) ∧
    (∀ (g : Graph) (pid : String) (dF : Option Domain) (tF : Option Timepoint)
       (rs : List BarrierRecord) (b : String) (lb dn tn sc : Node),
       getParticipantBarriers g pid dF tF = some rs →
       (⟨b, bcioHasSeverityScore, sc⟩ : Triple) ∈ g →
       (⟨b, rdfsLabel, lb⟩ : Triple) ∈ g →
       (⟨b, bcioConcernsDomain, dn⟩ : Triple) ∈ g →
       (⟨b, bcioAssessedAtTimepoint, tn⟩ : Triple) ∈ g →
       rowKeep g pid dF tF b = true →
       ∃ r ∈ rs, r.barrier_uri = b) ∧
    ((getParticipantBarriers crossParticipantStore "P001" none none).map
        (fun rs => rs.map (fun r => r.barrier_uri)) =
      some ["http://interventions.org/barrier/P001/employment/physical_capability/baseline",
            "http://interventions.org/barrier/P0011/employment/physical_capability/baseline"] ∧
     strContains
       (barrierUri "P0011" .employment .physical_capability .baseline) ("P001") = true) := by
  refine ⟨?_, ?_, by decide, by decide⟩
  · intro g pid dF tF rs r hout hr
    unfold getParticipantBarriers at hout
    obtain ⟨row, hrowS, hconv⟩ := pyMapM_backward toRecord hout r hr
    obtain ⟨hkeep, _⟩ := queryRows_elim (mem_stableSort.1 hrowS)
    rw [(toRecord_spec hconv).1]
    unfold rowKeep at hkeep
    simp only [Bool.and_eq_true] at hkeep
    exact hkeep.2
  · intro g pid dF tF rs b lb dn tn sc hout hsev hlb hdn htn hkeep
    obtain ⟨co, hco⟩ := optionalMatches_nonempty (objectsOf g b bcioHasChangeFromBaseline)
    have hrowS : (⟨b, sc, lb, dn, tn, co⟩ : QRow) ∈
        stableSort rowLe (queryRows g pid dF tF) :=
      mem_stableSort.2 (mem_queryRows_intro hsev hlb hdn htn hco hkeep)
    unfold getParticipantBarriers at hout
    obtain ⟨rec, hrec, hconv⟩ := pyMapM_forward toRecord hout _ hrowS
    exact ⟨rec, hrec, (toRecord_spec hconv).1⟩

set_option maxRecDepth 100000 in
/-- C9 witness: querying `crossParticipantStore` for P001 returns P0011's
baseline record, whose URI merely contains "P001" as a substring. -/
theorem claim_C9_witness :
    strContains
      (⟨"http://interventions.org/barrier/P0011/employment/physical_capability/baseline",
        "Physical Capability Barrier", "Employment_Domain", "Baseline", 7,
        none⟩ : BarrierRecord).barrier_uri ("P001") = true :=
  claim_C9.1 crossParticipantStore "P001" none none
    [⟨"http://interventions.org/barrier/P001/employment/physical_capability/baseline",
      "Physical Capability Barrier", "Employment_Domain", "Baseline", 4, none⟩,
     ⟨"http://interventions.org/barrier/P0011/employment/physical_capability/baseline",
      "Physical Capability Barrier", "Employment_Domain", "Baseline", 7, none⟩]
    ⟨"http://interventions.org/barrier/P0011/employment/physical_capability/baseline",
      "Physical Capability Barrier", "Employment_Domain", "Baseline", 7, none⟩
    (by decide) (by decide)

set_option maxRecDepth 100000 in
/-- C5 witness: the average over the scenario's change values -3, 0, 2 is
their exact arithmetic mean. -/
theorem claim_C5_witness :
    calculateAvgBarrierReduction cohortScenarioStore =
      some ((([-3, 0, 2] : List Int).sum : Rat) / (([-3, 0, 2] : List Int).length : Rat)) :=
  claim_C5.2.1 cohortScenarioStore [-3, 0, 2] (by decide) (by decide)

end CSM
